import Mathlib

/-!
# Peregrine backend: authorization handlers and natural-key upserts

A shallow embedding of the request handlers of `internal/server` (users and
comments), the context accessors of `internal/http`, the upsert statement of
`internal/store/reports.go` and the schema query of
`internal/store/schemas.go`, followed by theorems about them.

Conventions of the embedding.

* Go `int64` values are `Int`; the only place where the 64-bit range matters
  is `strconv.ParseInt`, which checks it explicitly.
* A Go pointer field (`*string`, `*int64`, `*Roles`) is an `Option`; a slice
  that may be `nil` is an `Option (List _)`.
* A handler is a function from the server's collaborators, the request and
  the result of decoding the request body to an `Outcome`: the response
  status, the response body and the store calls performed, in order.
  Logging is not modelled.
* The store is a record of functions returning what the corresponding
  method returns.
-/

namespace Peregrine

/-! ## Data model -/

/-- Roles of a user (`store.Roles`); the zero value has every flag false. -/
structure Roles where
  IsSuperAdmin : Bool := false
  IsAdmin : Bool := false
  IsVerified : Bool := false
  deriving DecidableEq, Repr

/-- User record handed to the store (`store.User`), with the fields the
handlers read and write. -/
structure User where
  ID : Int := 0
  Username : String := ""
  HashedPassword : String := ""
  RealmID : Int := 0
  FirstName : String := ""
  LastName : String := ""
  Roles : Roles := {}
  Stars : Option (List String) := none
  deriving DecidableEq, Repr

/-- Nullable user for patching (`store.PatchUser`). -/
structure PatchUser where
  ID : Int := 0
  Username : Option String := none
  HashedPassword : Option String := none
  Roles : Option Roles := none
  FirstName : Option String := none
  LastName : Option String := none
  Stars : Option (List String) := none
  deriving DecidableEq, Repr

/-- Body of a create-user request (`requestUser` with the embedded
`baseUser`). -/
structure requestUser where
  Username : String := ""
  Password : String := ""
  RealmID : Int := 0
  FirstName : String := ""
  LastName : String := ""
  Roles : Roles := {}
  deriving DecidableEq, Repr

/-- Body of a patch-user request (`patchUser` local to `patchUserHandler`). -/
structure patchUser where
  Username : Option String := none
  Password : Option String := none
  FirstName : Option String := none
  LastName : Option String := none
  Roles : Option Roles := none
  Stars : Option (List String) := none
  deriving DecidableEq, Repr

/-- A comment on a team in a match (`store.Comment`), with the fields the
handlers assign and the text. -/
structure Comment where
  ID : Int := 0
  EventKey : String := ""
  MatchKey : String := ""
  TeamKey : String := ""
  ReporterID : Option Int := none
  RealmID : Option Int := none
  Text : String := ""
  deriving DecidableEq, Repr

/-- Error values of the store that the handlers tell apart by type, and any
other error. -/
inductive StoreError where
  | ErrNoResults
  | ErrExists
  | ErrFKeyViolation
  | other
  deriving DecidableEq, Repr

deriving instance DecidableEq for Except

/-! ## Request context (`internal/http/context.go`) -/

/-- Dynamic value stored under a context key: Go's `interface{}` restricted
to the types the accessors test for, and `other` for any other type. -/
inductive CtxValue where
  | str (s : String)
  | int64 (n : Int)
  | roles (r : Roles)
  | other
  deriving DecidableEq, Repr

/-- The parts of `*http.Request` the handlers read: the three context values
(`none` is a nil interface) and the route variables of `mux.Vars`. -/
structure Request where
  subject : Option CtxValue := none
  roles : Option CtxValue := none
  realm : Option CtxValue := none
  vars : List (String × String) := []
  deriving DecidableEq, Repr

/-- Lookup in the Go map of route variables: a missing key gives the empty
string. -/
def Request.var (r : Request) (k : String) : String :=
  match r.vars.lookup k with
  | some v => v
  | none => ""

def int64Min : Int := -(2 ^ 63)
def int64Max : Int := 2 ^ 63 - 1

/-- Value of a decimal digit, `none` for any other character. -/
def digitVal (c : Char) : Option Nat :=
  if '0' ≤ c ∧ c ≤ '9' then some (c.toNat - '0'.toNat) else none

/-- Digit loop of `strconv.ParseUint(s, 10, 64)` with accumulator `acc`:
`none` on a non-digit (syntax error) or when the value leaves the unsigned
64-bit range (range error). -/
def parseUintLoop : List Char → Nat → Option Nat
  | [], acc => some acc
  | c :: cs, acc =>
    match digitVal c with
    | none => none
    | some d =>
      if acc * 10 + d < 2 ^ 64 then parseUintLoop cs (acc * 10 + d) else none

/-- Unsigned parse, `strconv.ParseUint(s, 10, 64)`: the empty string is a
syntax error. -/
def ParseUint (s : List Char) : Option Nat :=
  match s with
  | [] => none
  | _ => parseUintLoop s 0

/-- Signed parse, `strconv.ParseInt(s, 10, 64)`: an optional sign, then an
unsigned parse, then the signed range check. `none` is a non-nil error. -/
def ParseInt (s : String) : Option Int :=
  match s.toList with
  | [] => none
  | c :: cs =>
    let neg := c == '-'
    let rest := if c == '+' ∨ c == '-' then cs else c :: cs
    match ParseUint rest with
    | none => none
    | some un =>
      if !neg && un ≥ 2 ^ 63 then none
      else if neg && un > 2 ^ 63 then none
      else some (if neg then -(un : Int) else (un : Int))

/-- Subject (user id) of the request context: `GetSubject`. -/
def GetSubject (r : Request) : Except String Int :=
  match r.subject with
  | none => .error "no subject set on context"
  | some (.str sub) =>
    match ParseInt sub with
    | none => .error "unable to parse subject as int"
    | some id => .ok id
  | some _ => .error "got invalid type for subject"

/-- Roles of the request context: `GetRoles`; the zero roles when absent or
of another type. -/
def GetRoles (r : Request) : Roles :=
  match r.roles with
  | none => {}
  | some (.roles roles) => roles
  | some _ => {}

/-- Realm id of the request context: `GetRealmID`. -/
def GetRealmID (r : Request) : Except String Int :=
  match r.realm with
  | none => .error "no realm set on context"
  | some (.int64 realmID) => .ok realmID
  | some _ => .error "got invalid type for realm"

/-! ## Collaborators and outcomes -/

/-- The methods of the store the handlers call, as the values they return:
an `Except` for a method returning a value and an error, an `Option`
holding the error for a method returning only an error. -/
structure Store where
  GetUserByID : Int → Except StoreError User
  GetUsers : Except StoreError (List User)
  GetUsersByRealm : Int → Except StoreError (List User)
  CreateUser : User → Option StoreError
  PatchUser : PatchUser → Option StoreError
  DeleteUser : Int → Option StoreError
  CheckMatchKeyExists : String → Except StoreError Bool
  UpsertMatchTeamComment : Comment → Except StoreError Bool
  GetMatchTeamComments : String → String → Except StoreError (List Comment)
  GetMatchTeamCommentsForRealm :
    String → String → Option Int → Except StoreError (List Comment)
  GetEventTeamComments : String → String → Except StoreError (List Comment)
  GetEventTeamCommentsForRealm :
    String → String → Option Int → Except StoreError (List Comment)

/-- The server: its store and the password hash
`bcrypt.GenerateFromPassword(_, bcrypt.DefaultCost)`, `none` when it returns
an error. -/
structure Server where
  Store : Store
  GenerateFromPassword : String → Option String

/-- A call of a store method with its arguments. -/
inductive StoreCall where
  | GetUserByID (id : Int)
  | GetUsers
  | GetUsersByRealm (realmID : Int)
  | CreateUser (u : User)
  | PatchUser (u : PatchUser)
  | DeleteUser (id : Int)
  | CheckMatchKeyExists (matchKey : String)
  | UpsertMatchTeamComment (c : Comment)
  | GetMatchTeamComments (matchKey teamKey : String)
  | GetMatchTeamCommentsForRealm (matchKey teamKey : String) (realmID : Option Int)
  | GetEventTeamComments (eventKey teamKey : String)
  | GetEventTeamCommentsForRealm (eventKey teamKey : String) (realmID : Option Int)
  deriving DecidableEq, Repr

/-- What a response carries besides its status. -/
inductive Payload where
  | empty
  | error
  | invalid
  | storeError (e : StoreError)
  | user (u : User)
  | users (us : List User)
  | comments (cs : List Comment)
  deriving DecidableEq, Repr

/-- Result of running a handler: response status, response payload and the
store calls performed, in order. -/
structure Outcome where
  status : Nat
  payload : Payload
  calls : List StoreCall
  deriving DecidableEq, Repr

def StatusOK : Nat := 200
def StatusCreated : Nat := 201
def StatusNoContent : Nat := 204
def StatusBadRequest : Nat := 400
def StatusUnauthorized : Nat := 401
def StatusForbidden : Nat := 403
def StatusNotFound : Nat := 404
def StatusConflict : Nat := 409
def StatusUnprocessableEntity : Nat := 422
def StatusInternalServerError : Nat := 500

/-- Error response `ihttp.Error(w, status)` after the store calls `calls`. -/
def Error (status : Nat) (calls : List StoreCall) : Outcome :=
  ⟨status, .error, calls⟩

/-- Data response `ihttp.Respond(w, data, status)` after the store calls
`calls`. -/
def Respond (data : Payload) (status : Nat) (calls : List StoreCall) : Outcome :=
  ⟨status, data, calls⟩

/-! ## Validation (struct tags read by `validator.New().Struct`) -/

/-- Tags `gte=lo,lte=hi` on a string: bounds on its number of characters. -/
def lenBetween (lo hi : Nat) (s : String) : Bool :=
  lo ≤ s.length && s.length ≤ hi

/-- Validation of a `requestUser`: `Username` `gte=4,lte=32`, `Password`
`gte=8,lte=128`, `RealmID`, `FirstName` and `LastName` `required` (not the
zero value); `Roles` has no tag. -/
def validateRequestUser (ru : requestUser) : Bool :=
  lenBetween 4 32 ru.Username && lenBetween 8 128 ru.Password &&
  ru.RealmID != 0 && ru.FirstName != "" && ru.LastName != ""

/-- Tags `omitempty,gte=lo,lte=hi` on a `*string`: a nil pointer passes, a
pointer is checked on the string it points to. -/
def validateOptLen (lo hi : Nat) (s : Option String) : Bool :=
  match s with
  | none => true
  | some v => lenBetween lo hi v

/-- Validation of a `patchUser`: `Username` `omitempty,gte=4,lte=32`,
`Password` `omitempty,gte=8,lte=128`; `FirstName` and `LastName`
`omitempty,gte=0` always pass; `Roles` and `Stars` have no tag. -/
def validatePatchUser (ru : patchUser) : Bool :=
  validateOptLen 4 32 ru.Username && validateOptLen 8 128 ru.Password

/-! ## User handlers (`internal/server/users.go`) -/

/-- Role clamping of `createUserHandler` (lines 91-108): the request with the
roles the handler goes on with, for caller roles `roles` and realm claim
`realm`. -/
def createUserClamp (roles : Roles) (realm : Except String Int) (ru : requestUser) :
    requestUser :=
  -- If the creator user isn't an admin, reset their roles
  let ru := if !roles.IsAdmin && !roles.IsSuperAdmin then { ru with Roles := {} } else ru
  -- Only super-admins can create super-admins
  let ru :=
    if !roles.IsSuperAdmin then { ru with Roles := { ru.Roles with IsSuperAdmin := false } }
    else ru
  -- Only super-admins can create verified users in realms other than their own
  if !roles.IsSuperAdmin then
    match realm with
    | .error _ => { ru with Roles := { ru.Roles with IsVerified := false, IsAdmin := false } }
    | .ok id =>
      if id != ru.RealmID then
        { ru with Roles := { ru.Roles with IsVerified := false, IsAdmin := false } }
      else ru
  else ru

/-- Handler `createUserHandler`; `body` is the decoded request body, `none`
when decoding fails. -/
def createUserHandler (s : Server) (r : Request) (body : Option requestUser) : Outcome :=
  match body with
  | none => Error StatusUnprocessableEntity []
  | some ru =>
    let roles := GetRoles r
    let ru := createUserClamp roles (GetRealmID r) ru
    if !validateRequestUser ru then Respond .invalid StatusUnprocessableEntity []
    else
      let u : User :=
        { Username := ru.Username, RealmID := ru.RealmID, Roles := ru.Roles,
          FirstName := ru.FirstName, LastName := ru.LastName }
      match s.GenerateFromPassword ru.Password with
      | none => Error StatusInternalServerError []
      | some hashedPassword =>
        let u := { u with HashedPassword := hashedPassword }
        match s.Store.CreateUser u with
        | some .ErrExists => Respond (.storeError .ErrExists) StatusConflict [.CreateUser u]
        | some .ErrFKeyViolation =>
          Respond (.storeError .ErrFKeyViolation) StatusUnprocessableEntity [.CreateUser u]
        | some _ => Error StatusInternalServerError [.CreateUser u]
        | none => Respond .empty StatusCreated [.CreateUser u]

/-- Handler `getUsersHandler`. In the branch of a caller who is not
super-admin, `realmID, err := ...` declares a new `err` local to the branch;
the listing's error is assigned to that variable, and the check after the
branch reads the outer one, which is still nil. The users sent then are the
first result of `GetUsersByRealm`, here the empty list. -/
def getUsersHandler (s : Server) (r : Request) : Outcome :=
  let roles := GetRoles r
  if roles.IsSuperAdmin then
    match s.Store.GetUsers with
    | .error _ => Error StatusInternalServerError [.GetUsers]
    | .ok users => Respond (.users users) StatusOK [.GetUsers]
  else
    match GetRealmID r with
    | .error _ => Error StatusUnauthorized []
    | .ok realmID =>
      match s.Store.GetUsersByRealm realmID with
      | .error _ => Respond (.users []) StatusOK [.GetUsersByRealm realmID]
      | .ok users => Respond (.users users) StatusOK [.GetUsersByRealm realmID]

/-- Handler `getUserByIDHandler`. -/
def getUserByIDHandler (s : Server) (r : Request) : Outcome :=
  match ParseInt (r.var "id") with
  | none => Error StatusBadRequest []
  | some id =>
    match GetSubject r with
    | .error _ => Error StatusUnauthorized []
    | .ok sub =>
      let roles := GetRoles r
      -- If the user is not an admin and their ID does not equal the ID they
      -- are trying to get, they are forbidden
      if !roles.IsAdmin && !roles.IsSuperAdmin && sub != id then Error StatusForbidden []
      else
        match s.Store.GetUserByID id with
        | .error .ErrNoResults => Error StatusNotFound [.GetUserByID id]
        | .error _ => Error StatusInternalServerError [.GetUserByID id]
        | .ok user =>
          if !roles.IsSuperAdmin && sub != id then
            match GetRealmID r with
            | .error _ => Error StatusForbidden [.GetUserByID id]
            | .ok realmID =>
              if realmID != user.RealmID then Error StatusForbidden [.GetUserByID id]
              else Respond (.user user) StatusOK [.GetUserByID id]
          else Respond (.user user) StatusOK [.GetUserByID id]

/-- Role clamping of `patchUserHandler` (lines 263-271). -/
def patchUserClamp (roles : Roles) (ru : patchUser) : patchUser :=
  -- If the creator user isn't an admin, reset roles
  let ru := if !roles.IsAdmin && !roles.IsSuperAdmin then { ru with Roles := none } else ru
  -- Only super-admins can create super-admins
  match ru.Roles with
  | some rs =>
    if !roles.IsSuperAdmin then { ru with Roles := some { rs with IsSuperAdmin := false } }
    else ru
  | none => ru

/-- Lines 278-290 of `patchUserHandler`: the `store.PatchUser` built from the
clamped, validated body, with the password hashed when one is given; `none`
when hashing returns an error. -/
def patchUserBuild (s : Server) (targetID : Int) (ru : patchUser) : Option PatchUser :=
  let u : PatchUser :=
    { ID := targetID, Username := ru.Username, Roles := ru.Roles,
      FirstName := ru.FirstName, LastName := ru.LastName, Stars := ru.Stars }
  match ru.Password with
  | none => some u
  | some password =>
    match s.GenerateFromPassword password with
    | none => none
    | some hashedPassword => some { u with HashedPassword := some hashedPassword }

/-- Lines 263-305 of `patchUserHandler`, reached once the caller is
authorized: clamping, validation, hashing and the store call. `calls` are the
store calls made before. -/
def patchUserApply (s : Server) (targetID : Int) (roles : Roles) (ru : patchUser)
    (calls : List StoreCall) : Outcome :=
  let ru := patchUserClamp roles ru
  if !validatePatchUser ru then Respond .invalid StatusUnprocessableEntity calls
  else
    match patchUserBuild s targetID ru with
    | none => Error StatusInternalServerError calls
    | some u =>
      match s.Store.PatchUser u with
      | some .ErrNoResults => Error StatusNotFound (calls ++ [.PatchUser u])
      | some .ErrFKeyViolation => Error StatusUnprocessableEntity (calls ++ [.PatchUser u])
      | some _ => Error StatusInternalServerError (calls ++ [.PatchUser u])
      | none => Respond .empty StatusNoContent (calls ++ [.PatchUser u])

/-- Handler `patchUserHandler`; `body` is the decoded request body, `none`
when decoding fails. -/
def patchUserHandler (s : Server) (r : Request) (body : Option patchUser) : Outcome :=
  match ParseInt (r.var "id") with
  | none => Error StatusBadRequest []
  | some targetID =>
    match GetSubject r with
    | .error _ => Error StatusUnauthorized []
    | .ok subjectID =>
      let roles := GetRoles r
      if targetID != subjectID && !roles.IsAdmin && !roles.IsSuperAdmin then
        Error StatusForbidden []
      else
        match body with
        | none => Error StatusUnprocessableEntity []
        | some ru =>
          -- Admins can only patch users in the same realm
          if targetID != subjectID && !roles.IsSuperAdmin then
            match s.Store.GetUserByID targetID with
            | .error _ => Error StatusInternalServerError [.GetUserByID targetID]
            | .ok targetUser =>
              match GetRealmID r with
              | .error _ => Error StatusForbidden [.GetUserByID targetID]
              | .ok realmID =>
                if realmID != targetUser.RealmID then
                  Error StatusForbidden [.GetUserByID targetID]
                else patchUserApply s targetID roles ru [.GetUserByID targetID]
          else patchUserApply s targetID roles ru []

/-- Lines 343-350 of `deleteUserHandler`: the store call and its response. -/
def deleteUserApply (s : Server) (id : Int) (calls : List StoreCall) : Outcome :=
  match s.Store.DeleteUser id with
  | some _ => Error StatusInternalServerError (calls ++ [.DeleteUser id])
  | none => Respond .empty StatusNoContent (calls ++ [.DeleteUser id])

/-- Handler `deleteUserHandler`. -/
def deleteUserHandler (s : Server) (r : Request) : Outcome :=
  match ParseInt (r.var "id") with
  | none => Error StatusBadRequest []
  | some id =>
    match GetSubject r with
    | .error _ => Error StatusUnauthorized []
    | .ok requestID =>
      let roles := GetRoles r
      if id != requestID && !roles.IsAdmin && !roles.IsSuperAdmin then
        Error StatusForbidden []
      else
        -- Admins can only delete users in the same realm
        if id != requestID && !roles.IsSuperAdmin then
          match s.Store.GetUserByID id with
          | .error _ => Error StatusInternalServerError [.GetUserByID id]
          | .ok targetUser =>
            match GetRealmID r with
            | .error _ => Error StatusForbidden [.GetUserByID id]
            | .ok realmID =>
              if realmID != targetUser.RealmID then Error StatusForbidden [.GetUserByID id]
              else deleteUserApply s id [.GetUserByID id]
        else deleteUserApply s id []

/-! ## Comment handlers (`internal/server/comments.go`) -/

/-- Pieces of a string between occurrences of `sep`, as
`strings.Split(s, sep)` gives them for a one-character separator: one more
piece than there are separators. -/
def splitOn (sep : Char) : List Char → List (List Char)
  | [] => [[]]
  | c :: cs =>
    if c = sep then [] :: splitOn sep cs
    else
      match splitOn sep cs with
      | [] => [[c]]
      | p :: ps => (c :: p) :: ps

/-- Function `trimMatchKey`: the part after the underscore of a key with
exactly one underscore, the empty string otherwise. -/
def trimMatchKey (key : String) : String :=
  match splitOn '_' key.toList with
  | [_, part] => String.mk part
  | _ => ""

/-- Match key the handlers build from the route variables:
`fmt.Sprintf("%s_%s", eventKey, partialMatchKey)`. -/
def fullMatchKey (eventKey partialMatchKey : String) : String :=
  eventKey ++ "_" ++ partialMatchKey

/-- Realm pointer that `getMatchTeamComments` and `getEventComments` hand to
the realm-scoped query (lines 41-45 and 77-81): `realmID` starts nil and is
set to the address of `userRealmID` when `realmErr != nil`; `userRealmID` is
then the zero value `GetRealmID` returns with its error. -/
def commentsRealmID (r : Request) : Option Int :=
  match GetRealmID r with
  | .error _ => some 0
  | .ok _ => none

/-- Lines 50-61 and 86-97: the response to a comments query. -/
def respondComments (res : Except StoreError (List Comment)) (calls : List StoreCall) :
    Outcome :=
  match res with
  | .error _ => Error StatusInternalServerError calls
  | .ok comments =>
    Respond (.comments (comments.map fun c => { c with MatchKey := trimMatchKey c.MatchKey }))
      StatusOK calls

/-- Handler `getMatchTeamComments`. -/
def getMatchTeamComments (s : Server) (r : Request) : Outcome :=
  let eventKey := r.var "eventKey"
  let partialMatchKey := r.var "matchKey"
  let teamKey := r.var "teamKey"
  let matchKey := fullMatchKey eventKey partialMatchKey
  if (GetRoles r).IsSuperAdmin then
    respondComments (s.Store.GetMatchTeamComments matchKey teamKey)
      [.GetMatchTeamComments matchKey teamKey]
  else
    let realmID := commentsRealmID r
    respondComments (s.Store.GetMatchTeamCommentsForRealm matchKey teamKey realmID)
      [.GetMatchTeamCommentsForRealm matchKey teamKey realmID]

/-- Handler `getEventComments`. -/
def getEventComments (s : Server) (r : Request) : Outcome :=
  let eventKey := r.var "eventKey"
  let teamKey := r.var "teamKey"
  if (GetRoles r).IsSuperAdmin then
    respondComments (s.Store.GetEventTeamComments eventKey teamKey)
      [.GetEventTeamComments eventKey teamKey]
  else
    let realmID := commentsRealmID r
    respondComments (s.Store.GetEventTeamCommentsForRealm eventKey teamKey realmID)
      [.GetEventTeamCommentsForRealm eventKey teamKey realmID]

/-- Handler `putMatchTeamComment`; `body` is the decoded request body, `none`
when decoding fails. -/
def putMatchTeamComment (s : Server) (r : Request) (body : Option Comment) : Outcome :=
  let eventKey := r.var "eventKey"
  let partialMatchKey := r.var "matchKey"
  let teamKey := r.var "teamKey"
  let matchKey := fullMatchKey eventKey partialMatchKey
  let calls := [StoreCall.CheckMatchKeyExists matchKey]
  match s.Store.CheckMatchKeyExists matchKey with
  | .error _ => Error StatusInternalServerError calls
  | .ok false => Error StatusNotFound calls
  | .ok true =>
    match body with
    | none => Error StatusUnprocessableEntity calls
    | some comment =>
      let comment := { comment with EventKey := eventKey, MatchKey := matchKey, TeamKey := teamKey }
      match GetSubject r with
      | .error _ => Error StatusForbidden calls
      | .ok reporterID =>
        let comment := { comment with ReporterID := some reporterID }
        match GetRealmID r with
        | .error _ => Error StatusForbidden calls
        | .ok realmID =>
          let comment := { comment with RealmID := some realmID }
          let calls := calls ++ [.UpsertMatchTeamComment comment]
          match s.Store.UpsertMatchTeamComment comment with
          | .error _ => Error StatusInternalServerError calls
          | .ok true => ⟨StatusCreated, .empty, calls⟩
          | .ok false => ⟨StatusNoContent, .empty, calls⟩

/-! ## Reports table (`internal/store/reports.go`) -/

/-- A single statistic of a report (`Stat`). -/
structure Stat where
  Attempts : Option Int := none
  Successes : Option Int := none
  Attempted : Option Bool := none
  Succeeded : Option Bool := none
  Name : String := ""
  deriving DecidableEq, Repr

/-- All the data in a report (`ReportData`). -/
structure ReportData where
  Auto : List Stat := []
  Teleop : List Stat := []
  deriving DecidableEq, Repr

/-- A report, and a row of the `reports` table (`Report`); `ReporterID` and
`RealmID` are nullable columns. -/
structure Report where
  ID : Int := 0
  MatchKey : String := ""
  TeamKey : String := ""
  ReporterID : Option Int := none
  RealmID : Option Int := none
  AutoName : String := ""
  Data : ReportData := {}
  deriving DecidableEq, Repr

/-- The `reports` table: its rows and the next value of the `id` sequence. -/
structure Reports where
  rows : List Report := []
  nextID : Int := 1
  deriving DecidableEq, Repr

/-- SQL equality on a nullable column as a unique index applies it: two
values are equal when both are non-null and the same; NULL equals nothing,
itself included. -/
def sqlEq (a b : Option Int) : Bool :=
  match a, b with
  | some x, some y => x == y
  | _, _ => false

/-- Conflict of an existing row with a proposed row on the target
`ON CONFLICT (match_key, team_key, reporter_id)`. -/
def conflicts (new old : Report) : Bool :=
  old.MatchKey == new.MatchKey && old.TeamKey == new.TeamKey &&
  sqlEq old.ReporterID new.ReporterID

/-- Statement of `UpsertReport`: insert `(match_key, team_key, reporter_id,
realm_id, auto_name, data)` with the next `id`; when a row conflicts on
`(match_key, team_key, reporter_id)`, set that row's `auto_name` and `data`
instead. The `id` sequence advances in both cases. -/
def UpsertReport (t : Reports) (r : Report) : Reports :=
  if t.rows.any (conflicts r) then
    { rows := t.rows.map fun old =>
        if conflicts r old then { old with AutoName := r.AutoName, Data := r.Data } else old,
      nextID := t.nextID + 1 }
  else
    { rows := t.rows ++ [{ r with ID := t.nextID }], nextID := t.nextID + 1 }

/-- Rows of the table whose natural key is `(matchKey, teamKey, reporterID)`,
compared field by field (two null reporters are the same key). -/
def rowsWithKey (t : Reports) (matchKey teamKey : String) (reporterID : Option Int) :
    List Report :=
  t.rows.filter fun row =>
    row.MatchKey == matchKey && row.TeamKey == teamKey && row.ReporterID == reporterID

/-- Rows of the table whose natural key is not `(matchKey, teamKey,
reporterID)`. -/
def rowsWithOtherKey (t : Reports) (matchKey teamKey : String) (reporterID : Option Int) :
    List Report :=
  t.rows.filter fun row =>
    !(row.MatchKey == matchKey && row.TeamKey == teamKey && row.ReporterID == reporterID)

/-- The record `createUserHandler` builds at lines 115-124 from the clamped
request `ru` and the hashed password. -/
def createUserRecord (ru : requestUser) (hashedPassword : String) : User :=
  { Username := ru.Username, RealmID := ru.RealmID, Roles := ru.Roles,
    FirstName := ru.FirstName, LastName := ru.LastName, HashedPassword := hashedPassword }

/-- Modelled from the spec: the store's `PatchUser` (`internal/store`, whose
user file is not among the sources) as the partial update the specification
names `patchIdentity(partial)`: a field the patch leaves nil keeps its stored
value, a field it carries replaces it. -/
def applyPatchUser (stored : User) (p : PatchUser) : User :=
  { ID := stored.ID
    RealmID := stored.RealmID
    Username := p.Username.getD stored.Username
    HashedPassword := p.HashedPassword.getD stored.HashedPassword
    Roles := p.Roles.getD stored.Roles
    FirstName := p.FirstName.getD stored.FirstName
    LastName := p.LastName.getD stored.LastName
    Stars := match p.Stars with
      | some stars => some stars
      | none => stored.Stars }

/-! ## Example collaborators -/

/-- A store with two users, 7 in realm 5 and 8 in realm 6, whose writes
succeed and whose comment queries are empty. -/
def exampleStore : Store where
  GetUserByID id :=
    if id = 7 then .ok { ID := 7, Username := "alice", RealmID := 5 }
    else if id = 8 then .ok { ID := 8, Username := "bruno", RealmID := 6 }
    else .error .ErrNoResults
  GetUsers := .ok []
  GetUsersByRealm _ := .ok []
  CreateUser _ := none
  PatchUser _ := none
  DeleteUser _ := none
  CheckMatchKeyExists _ := .ok true
  UpsertMatchTeamComment _ := .ok true
  GetMatchTeamComments _ _ := .ok []
  GetMatchTeamCommentsForRealm _ _ _ := .ok []
  GetEventTeamComments _ _ := .ok []
  GetEventTeamCommentsForRealm _ _ _ := .ok []

/-- A server over `exampleStore` whose password hash never fails. -/
def exampleServer : Server where
  Store := exampleStore
  GenerateFromPassword p := some ("hash:" ++ p)

/-- Request of caller `sub` with roles `roles` and realm claim `realm` on the
route `/users/id`. -/
def userRequest (sub : String) (roles : Roles) (realm : Option Int) (id : String) : Request where
  subject := some (.str sub)
  roles := some (.roles roles)
  realm := realm.map .int64
  vars := [("id", id)]

/-! ## Policy of the specification -/

/-- Rule of the specification for writing another identity: the caller is
admin or super-admin, and is super-admin or has a realm claim equal to the
target identity's realm. -/
def mayWriteOther (roles : Roles) (realm : Except String Int) (targetRealm : Int) : Bool :=
  (roles.IsAdmin || roles.IsSuperAdmin) &&
  (roles.IsSuperAdmin ||
    match realm with
    | .ok id => id == targetRealm
    | .error _ => false)

/-- Rule of the specification for reading an identity: the caller reads
itself, or is super-admin, or is admin with a realm claim equal to the target
identity's realm. -/
def mayReadUser (sub id : Int) (roles : Roles) (realm : Except String Int)
    (targetRealm : Int) : Bool :=
  sub == id || roles.IsSuperAdmin ||
  (roles.IsAdmin &&
    match realm with
    | .ok realmID => realmID == targetRealm
    | .error _ => false)

/-- Role clamping as the specification words it: (1) a caller who is neither
admin nor super-admin gets every flag cleared; (2) a caller who is not
super-admin gets `isSuperAdmin` cleared; (3) a caller who is not super-admin
and whose realm claim is missing or differs from the requested realm gets
`isVerified` and `isAdmin` cleared; a flag not cleared is the requested
one. -/
def specClamp (caller : Roles) (realm : Except String Int) (requestedRealm : Int)
    (requested : Roles) : Roles :=
  let rule1 := !caller.IsAdmin && !caller.IsSuperAdmin
  let rule2 := !caller.IsSuperAdmin
  let rule3 := !caller.IsSuperAdmin &&
    match realm with
    | .ok id => id != requestedRealm
    | .error _ => true
  { IsSuperAdmin := if rule1 || rule2 then false else requested.IsSuperAdmin
    IsAdmin := if rule1 || rule3 then false else requested.IsAdmin
    IsVerified := if rule1 || rule3 then false else requested.IsVerified }

/-! ## Token subject (`authenticateHandler`, lines 65-72) -/

/-- Character of the decimal digit `d`, for `d < 10`. -/
def digitChar (d : Nat) : Char :=
  Char.ofNat ('0'.toNat + d)

/-- Decimal digits of an unsigned value, most significant first and without
leading zeros, `0` for zero: the digits `strconv.FormatInt(i, 10)` prints. -/
def FormatUint (u : Nat) : List Char :=
  if u = 0 then ['0'] else (Nat.digits 10 u).reverse.map digitChar

/-- Result of `strconv.FormatInt(i, 10)`: a minus sign for a negative value,
then the decimal digits of the magnitude. -/
def FormatInt (i : Int) : String :=
  String.mk (if i < 0 then '-' :: FormatUint i.natAbs else FormatUint i.natAbs)

/-- Claims of a token (`ihttp.Claims`): the roles and realm claims and, of the
standard claims, the two fields `authenticateHandler` sets. -/
structure Claims where
  Roles : Roles := {}
  RealmID : Int := 0
  ExpiresAt : Int := 0
  Subject : String := ""
  deriving DecidableEq, Repr

/-- Claims `authenticateHandler` signs for the authenticated `user` at Unix
time `now` (lines 65-72): expiry eight hours later, the user's id printed in
base 10 as subject, the user's roles and realm. -/
def authenticateClaims (user : User) (now : Int) : Claims :=
  { ExpiresAt := now + 8 * 3600
    Subject := FormatInt user.ID
    Roles := user.Roles
    RealmID := user.RealmID }

/-- Value of a list of decimal digits, most significant first. -/
def decimalValue (digits : List Nat) : Nat :=
  digits.foldl (fun acc d => acc * 10 + d) 0

/-- The string `s` is a base-10 int64 of value `n`: an optional sign `+` or
`-`, then at least one decimal digit and nothing else, the signed value being
`n` and lying in the 64-bit signed range. -/
def IsBase10Int64 (s : String) (n : Int) : Prop :=
  ∃ (sign : List Char) (digits : List Nat),
    (sign = [] ∨ sign = ['+'] ∨ sign = ['-']) ∧ digits ≠ [] ∧ (∀ d ∈ digits, d < 10) ∧
    s.toList = sign ++ digits.map digitChar ∧
    n = (if sign = ['-'] then -(decimalValue digits : Int) else (decimalValue digits : Int)) ∧
    int64Min ≤ n ∧ n ≤ int64Max

/-! ## Visible schemas (`internal/store/schemas.go`) -/

/-- Description of a single statistic in a schema (`StatDescription`); the
field `StatType` is the Go field `Type`. -/
structure StatDescription where
  Name : String := ""
  StatType : String := ""
  deriving DecidableEq, Repr

/-- A schema, and a row of the `schemas` table (`Schema`); `Year` and
`RealmID` are nullable columns. -/
structure Schema where
  ID : Int := 0
  Year : Option Int := none
  RealmID : Option Int := none
  Auto : List StatDescription := []
  Teleop : List StatDescription := []
  deriving DecidableEq, Repr

/-- The two columns of a row of the `realms` table that `GetVisibleSchemas`
reads. -/
structure Realm where
  ID : Int := 0
  ShareReports : Bool := false
  deriving DecidableEq, Repr

/-- Common table expression `public_realms`:
`SELECT id FROM realms WHERE share_reports = true`. -/
def publicRealms (realms : List Realm) : List Int :=
  (realms.filter fun realm => realm.ShareReports).map fun realm => realm.ID

/-- SQL `x IN (...)` as a `WHERE` clause keeps rows: a null `x` is in no
list. -/
def sqlIn (x : Option Int) (ids : List Int) : Bool :=
  match x with
  | some id => ids.contains id
  | none => false

/-- Row filter of the statement `GetVisibleSchemas` runs when `realmID` is
nil: `WHERE year IS NULL OR realm_id IN (SELECT id FROM public_realms)`. -/
def visibleWithoutRealm (realms : List Realm) (schema : Schema) : Bool :=
  schema.Year.isNone || sqlIn schema.RealmID (publicRealms realms)

/-- Function `GetVisibleSchemas` over the contents of the `realms` and
`schemas` tables. With a nil `realmID` the rows passing `visibleWithoutRealm`
are returned. With a realm id the second statement is run; its `WHERE` clause
ends in `OR (SELECT id FROM public_realms)`, a scalar subquery where a
condition is expected, and its result is left to the database: it is the
argument `withRealm`. -/
def GetVisibleSchemas (realms : List Realm) (schemas : List Schema)
    (withRealm : Int → Except StoreError (List Schema)) (realmID : Option Int) :
    Except StoreError (List Schema) :=
  match realmID with
  | none => .ok (schemas.filter (visibleWithoutRealm realms))
  | some id => withRealm id

/-- The realm owning `schema` does not share: the schema has a realm and that
realm's row has `share_reports = false`. -/
def ownedByPrivateRealm (realms : List Realm) (schema : Schema) : Bool :=
  match schema.RealmID with
  | some id => realms.any fun realm => realm.ID == id && !realm.ShareReports
  | none => false

/-! ## Example collaborators with faults -/

/-- The store `exampleStore` with failing user listings. -/
def faultyStore : Store :=
  { exampleStore with
    GetUsers := .error .other
    GetUsersByRealm := fun _ => .error .other }

/-- A server over `faultyStore`. -/
def faultyServer : Server where
  Store := faultyStore
  GenerateFromPassword p := some ("hash:" ++ p)

/-- A server over `exampleStore` whose password hash returns an error on
every password. -/
def failingHashServer : Server where
  Store := exampleStore
  GenerateFromPassword _ := none

/-! ## Alliances table (`internal/store/alliances.go`) -/

/-- A row of the `alliances` table, with the three columns the statement of
`AlliancesUpsertTx` names; `match_key` and `is_blue` are bound to a Go string
and a Go boolean and are never null. -/
structure Alliance where
  TeamKeys : List String := []
  MatchKey : String := ""
  IsBlue : Bool := false
  deriving DecidableEq, Repr

/-- Conflict of an existing row with the key `(matchKey, isBlue)` on the
target `ON CONFLICT (match_key, is_blue)`. -/
def allianceConflicts (matchKey : String) (isBlue : Bool) (old : Alliance) : Bool :=
  old.MatchKey == matchKey && old.IsBlue == isBlue

/-- One execution of the prepared statement of `AlliancesUpsertTx`: insert
`(team_keys, match_key, is_blue)`; when a row conflicts on
`(match_key, is_blue)`, set that row's `team_keys` instead. -/
def upsertAlliance (t : List Alliance) (teamKeys : List String) (matchKey : String)
    (isBlue : Bool) : List Alliance :=
  if t.any (allianceConflicts matchKey isBlue) then
    t.map fun old =>
      if allianceConflicts matchKey isBlue old then { old with TeamKeys := teamKeys } else old
  else
    t ++ [{ TeamKeys := teamKeys, MatchKey := matchKey, IsBlue := isBlue }]

/-- Function `AlliancesUpsertTx` as the table it leaves when both executions
succeed: the statement for the blue alliance, then for the red alliance.
Errors of the database are not modelled. -/
def AlliancesUpsertTx (t : List Alliance) (matchKey : String)
    (blueAlliance redAlliance : List String) : List Alliance :=
  upsertAlliance (upsertAlliance t blueAlliance matchKey true) redAlliance matchKey false

/-- Rows of the `alliances` table with the natural key `(matchKey, isBlue)`. -/
def alliancesWithKey (t : List Alliance) (matchKey : String) (isBlue : Bool) :
    List Alliance :=
  t.filter (allianceConflicts matchKey isBlue)

/-- An execution of the alliance statement: its three parameters. -/
structure AllianceStmt where
  TeamKeys : List String := []
  MatchKey : String := ""
  IsBlue : Bool := false
  deriving DecidableEq, Repr

/-- A serial order of statement executions on the `alliances` table, each one
atomic: the table after running them one after the other. -/
def runAllianceStmts (t : List Alliance) (stmts : List AllianceStmt) : List Alliance :=
  stmts.foldl (fun t s => upsertAlliance t s.TeamKeys s.MatchKey s.IsBlue) t

/-- A serial order of `UpsertReport` calls, each one atomic: the table after
running them one after the other. -/
def runUpsertReports (t : Reports) (rs : List Report) : Reports :=
  rs.foldl UpsertReport t

/-! ## Lemmas on the patch and delete tails -/

theorem validatePatchUser_clamp (roles : Roles) (ru : patchUser) :
    validatePatchUser (patchUserClamp roles ru) = validatePatchUser ru := by
  unfold patchUserClamp validatePatchUser
  cases roles.IsAdmin <;> cases roles.IsSuperAdmin <;> cases hr : ru.Roles <;> simp [hr]

theorem patchUserApply_status (s : Server) (targetID : Int) (roles : Roles) (ru : patchUser)
    (calls : List StoreCall) :
    (patchUserApply s targetID roles ru calls).status ≠ StatusForbidden := by
  unfold patchUserApply
  simp only []
  split
  · simp [Respond, StatusUnprocessableEntity, StatusForbidden]
  · split
    · simp [Error, StatusInternalServerError, StatusForbidden]
    · split <;>
        simp [Error, Respond, StatusInternalServerError, StatusForbidden, StatusNotFound,
          StatusUnprocessableEntity, StatusNoContent]

theorem mem_patchUserApply (s : Server) (targetID : Int) (roles : Roles) (ru : patchUser)
    (calls : List StoreCall) (u : PatchUser) :
    StoreCall.PatchUser u ∈ (patchUserApply s targetID roles ru calls).calls ↔
      StoreCall.PatchUser u ∈ calls ∨
        (validatePatchUser ru = true ∧
          patchUserBuild s targetID (patchUserClamp roles ru) = some u) := by
  unfold patchUserApply
  simp only [validatePatchUser_clamp]
  cases hv : validatePatchUser ru
  · simp [Respond]
  · cases hb : patchUserBuild s targetID (patchUserClamp roles ru) with
    | none => simp [Error]
    | some v =>
      have hcalls : StoreCall.PatchUser u ∈ calls ++ [StoreCall.PatchUser v] ↔
          StoreCall.PatchUser u ∈ calls ∨ v = u := by
        simp [eq_comm]
      simp only [Bool.not_true, Bool.false_eq_true, if_false, true_and, Option.some.injEq]
      split <;> simp only [Error, Respond] <;> exact hcalls

theorem patchUserBuild_isSome (s : Server) (targetID : Int) (ru : patchUser) :
    (∃ u, patchUserBuild s targetID ru = some u) ↔
      ∀ p, ru.Password = some p → s.GenerateFromPassword p ≠ none := by
  unfold patchUserBuild
  cases hp : ru.Password with
  | none => simp
  | some p =>
    cases hh : s.GenerateFromPassword p <;> simp [hh]

theorem patchUserClamp_Password (roles : Roles) (ru : patchUser) :
    (patchUserClamp roles ru).Password = ru.Password := by
  unfold patchUserClamp
  cases roles.IsAdmin <;> cases roles.IsSuperAdmin <;> cases hr : ru.Roles <;> simp [hr]

theorem deleteUserApply_status (s : Server) (id : Int) (calls : List StoreCall) :
    (deleteUserApply s id calls).status ≠ StatusForbidden := by
  unfold deleteUserApply
  split <;> simp [Error, Respond, StatusInternalServerError, StatusForbidden, StatusNoContent]

theorem deleteUserApply_calls (s : Server) (id : Int) (calls : List StoreCall) :
    (deleteUserApply s id calls).calls = calls ++ [StoreCall.DeleteUser id] := by
  unfold deleteUserApply
  split <;> simp [Error, Respond]

/-! ## Authorization of patch and delete -/

/-- Outcome of `patchUserHandler` on another identity, by the decision of
`mayWriteOther`. -/
theorem patchUserHandler_other (s : Server) (r : Request) (targetID subjectID : Int)
    (target : User) (ru : patchUser)
    (hid : ParseInt (r.var "id") = some targetID)
    (hsub : GetSubject r = .ok subjectID)
    (hne : targetID ≠ subjectID)
    (hget : s.Store.GetUserByID targetID = .ok target) :
    patchUserHandler s r (some ru) =
      if mayWriteOther (GetRoles r) (GetRealmID r) target.RealmID then
        patchUserApply s targetID (GetRoles r) ru
          (if (GetRoles r).IsSuperAdmin then [] else [.GetUserByID targetID])
      else
        Error StatusForbidden
          (if (GetRoles r).IsAdmin then [.GetUserByID targetID] else []) := by
  have hb : (targetID != subjectID) = true := by simpa using hne
  unfold patchUserHandler mayWriteOther
  simp only [hid, hsub, hb, hget]
  generalize GetRoles r = roles
  generalize GetRealmID r = realm
  rcases roles with ⟨sa, a, v⟩
  cases sa <;> cases a <;> cases realm <;> simp

/-- Outcome of `deleteUserHandler` on another identity, by the decision of
`mayWriteOther`. -/
theorem deleteUserHandler_other (s : Server) (r : Request) (id requestID : Int)
    (target : User)
    (hid : ParseInt (r.var "id") = some id)
    (hsub : GetSubject r = .ok requestID)
    (hne : id ≠ requestID)
    (hget : s.Store.GetUserByID id = .ok target) :
    deleteUserHandler s r =
      if mayWriteOther (GetRoles r) (GetRealmID r) target.RealmID then
        deleteUserApply s id
          (if (GetRoles r).IsSuperAdmin then [] else [.GetUserByID id])
      else
        Error StatusForbidden
          (if (GetRoles r).IsAdmin then [.GetUserByID id] else []) := by
  have hb : (id != requestID) = true := by simpa using hne
  unfold deleteUserHandler mayWriteOther
  simp only [hid, hsub, hb, hget]
  generalize GetRoles r = roles
  generalize GetRealmID r = realm
  rcases roles with ⟨sa, a, v⟩
  cases sa <;> cases a <;> cases realm <;> simp

/-- Outcome of `patchUserHandler` on the caller's own identity: lines 263-305
with no store call before. -/
theorem patchUserHandler_self (s : Server) (r : Request) (id : Int) (ru : patchUser)
    (hid : ParseInt (r.var "id") = some id)
    (hsub : GetSubject r = .ok id) :
    patchUserHandler s r (some ru) = patchUserApply s id (GetRoles r) ru [] := by
  unfold patchUserHandler
  simp [hid, hsub]

/-- Outcome of `deleteUserHandler` on the caller's own identity: the store
call with no store call before. -/
theorem deleteUserHandler_self (s : Server) (r : Request) (id : Int)
    (hid : ParseInt (r.var "id") = some id)
    (hsub : GetSubject r = .ok id) :
    deleteUserHandler s r = deleteUserApply s id [] := by
  unfold deleteUserHandler
  simp [hid, hsub]

/-- C1 (as stated, refuted): an admin of realm 5 patches identity 7 of realm
5 with the decodable body `username = "ab"`. The rule of the specification
allows the caller, yet the body fails validation (`gte=4`), the response is
422 and `PatchUser` is not called. -/
theorem patch_other_allowed_not_stored :
    GetSubject (userRequest "1" { IsAdmin := true } (some 5) "7") = .ok 1 ∧
    exampleStore.GetUserByID 7 = .ok { ID := 7, Username := "alice", RealmID := 5 } ∧
    mayWriteOther { IsAdmin := true } (.ok 5) 5 = true ∧
    patchUserHandler exampleServer (userRequest "1" { IsAdmin := true } (some 5) "7")
        (some { Username := some "ab" }) =
      ⟨StatusUnprocessableEntity, .invalid, [.GetUserByID 7]⟩ := by
  decide

/-- C1 (amended): for a caller with a parseable subject, any roles and any
realm claim, and an existing target identity other than the caller,
`patchUserHandler` on a decodable body calls the store's `PatchUser` iff the
rule `mayWriteOther` holds (admin or super-admin, and super-admin or realm
claim present and equal to the target's realm) and the body validates and its
password, if any, is hashed without error; `deleteUserHandler` calls
`DeleteUser` iff the rule holds; and each handler responds Forbidden iff the
rule fails. -/
theorem patch_delete_other_authorization (s : Server) (r : Request)
    (targetID subjectID : Int) (target : User) (ru : patchUser)
    (hid : ParseInt (r.var "id") = some targetID)
    (hsub : GetSubject r = .ok subjectID)
    (hne : targetID ≠ subjectID)
    (hget : s.Store.GetUserByID targetID = .ok target) :
    ((∃ u, StoreCall.PatchUser u ∈ (patchUserHandler s r (some ru)).calls) ↔
      mayWriteOther (GetRoles r) (GetRealmID r) target.RealmID = true ∧
        validatePatchUser ru = true ∧
        ∀ p, ru.Password = some p → s.GenerateFromPassword p ≠ none) ∧
    ((patchUserHandler s r (some ru)).status = StatusForbidden ↔
      mayWriteOther (GetRoles r) (GetRealmID r) target.RealmID = false) ∧
    (StoreCall.DeleteUser targetID ∈ (deleteUserHandler s r).calls ↔
      mayWriteOther (GetRoles r) (GetRealmID r) target.RealmID = true) ∧
    ((deleteUserHandler s r).status = StatusForbidden ↔
      mayWriteOther (GetRoles r) (GetRealmID r) target.RealmID = false) := by
  rw [patchUserHandler_other s r targetID subjectID target ru hid hsub hne hget,
    deleteUserHandler_other s r targetID subjectID target hid hsub hne hget]
  cases hm : mayWriteOther (GetRoles r) (GetRealmID r) target.RealmID
  · refine ⟨?_, ?_, ?_, ?_⟩
    · simp only [Bool.false_eq_true, if_false, false_and, iff_false, not_exists]
      intro u hu
      unfold Error at hu
      split at hu <;> simp at hu
    · simp [Error]
    · simp only [Bool.false_eq_true, if_false, iff_false]
      intro hu
      unfold Error at hu
      split at hu <;> simp at hu
    · simp [Error]
  · refine ⟨?_, ?_, ?_, ?_⟩
    · simp only [if_true, true_and]
      constructor
      · rintro ⟨u, hu⟩
        rw [mem_patchUserApply] at hu
        rcases hu with hu | ⟨hv, hb⟩
        · split at hu <;> simp at hu
        · refine ⟨hv, ?_⟩
          have := (patchUserBuild_isSome s targetID (patchUserClamp (GetRoles r) ru)).1 ⟨u, hb⟩
          simpa [patchUserClamp_Password] using this
      · rintro ⟨hv, hp⟩
        have hp2 : ∀ p, (patchUserClamp (GetRoles r) ru).Password = some p →
            s.GenerateFromPassword p ≠ none := by
          simpa [patchUserClamp_Password] using hp
        obtain ⟨u, hu⟩ := (patchUserBuild_isSome s targetID _).2 hp2
        exact ⟨u, (mem_patchUserApply _ _ _ _ _ _).2 (Or.inr ⟨hv, hu⟩)⟩
    · simp only [if_true]
      simp [patchUserApply_status]
    · simp [deleteUserApply_calls]
    · simp only [if_true]
      simp [deleteUserApply_status]

/-- C1 (witness): an admin of realm 5 patching identity 7 of realm 5 reaches
`PatchUser`; the same admin patching identity 8 of realm 6 is Forbidden. -/
theorem patch_delete_other_authorization_witness :
    (∃ u, StoreCall.PatchUser u ∈
      (patchUserHandler exampleServer (userRequest "1" { IsAdmin := true } (some 5) "7")
        (some { Username := some "carol" })).calls) ∧
    (patchUserHandler exampleServer (userRequest "1" { IsAdmin := true } (some 5) "8")
        (some { Username := some "carol" })).status = StatusForbidden :=
  ⟨(patch_delete_other_authorization exampleServer
      (userRequest "1" { IsAdmin := true } (some 5) "7") 7 1
      { ID := 7, Username := "alice", RealmID := 5 } { Username := some "carol" }
      (by decide) (by decide) (by decide) (by decide)).1.2
      ⟨by decide, by decide, by simp⟩,
   (patch_delete_other_authorization exampleServer
      (userRequest "1" { IsAdmin := true } (some 5) "8") 8 1
      { ID := 8, Username := "bruno", RealmID := 6 } { Username := some "carol" }
      (by decide) (by decide) (by decide) (by decide)).2.1.2 (by decide)⟩

/-- C2 (amended): for a caller with a parseable subject, any roles and any
realm claim, `patchUserHandler` and `deleteUserHandler` on the caller's own id
never respond Forbidden and never call `GetUserByID` (the target's realm is
not consulted), whatever the body; `deleteUserHandler` calls exactly
`DeleteUser id`; and `patchUserHandler`, on a body that decodes and validates
and whose password, if any, is hashed without error, calls exactly
`PatchUser` on the caller's id. -/
theorem self_access (s : Server) (r : Request) (id : Int)
    (hid : ParseInt (r.var "id") = some id)
    (hsub : GetSubject r = .ok id) :
    (∀ body : Option patchUser,
      (patchUserHandler s r body).status ≠ StatusForbidden ∧
      ∀ id2, StoreCall.GetUserByID id2 ∉ (patchUserHandler s r body).calls) ∧
    (∀ ru : patchUser, validatePatchUser ru = true →
      (∀ p, ru.Password = some p → s.GenerateFromPassword p ≠ none) →
      ∃ u, u.ID = id ∧ (patchUserHandler s r (some ru)).calls = [.PatchUser u]) ∧
    (deleteUserHandler s r).status ≠ StatusForbidden ∧
    (deleteUserHandler s r).calls = [.DeleteUser id] := by
  refine ⟨?_, ?_, ?_, ?_⟩
  · intro body
    cases body with
    | none =>
      unfold patchUserHandler
      simp [hid, hsub, Error, StatusUnprocessableEntity, StatusForbidden]
    | some ru =>
      rw [patchUserHandler_self s r id ru hid hsub]
      refine ⟨patchUserApply_status _ _ _ _ _, ?_⟩
      intro id2 hmem
      unfold patchUserApply at hmem
      simp only [] at hmem
      split at hmem
      · simp [Respond] at hmem
      · split at hmem
        · simp [Error] at hmem
        · split at hmem <;> simp [Error, Respond] at hmem
  · intro ru hv hp
    rw [patchUserHandler_self s r id ru hid hsub]
    have hp2 : ∀ p, (patchUserClamp (GetRoles r) ru).Password = some p →
        s.GenerateFromPassword p ≠ none := by
      simpa [patchUserClamp_Password] using hp
    obtain ⟨u, hu⟩ := (patchUserBuild_isSome s id _).2 hp2
    refine ⟨u, ?_, ?_⟩
    · unfold patchUserBuild at hu
      simp only [] at hu
      split at hu
      · simp at hu; rw [← hu]
      · split at hu
        · simp at hu
        · simp at hu; rw [← hu]
    · unfold patchUserApply
      simp only [validatePatchUser_clamp, hv, hu, Bool.not_true, Bool.false_eq_true, if_false,
        List.nil_append]
      split <;> rfl
  · rw [deleteUserHandler_self s r id hid hsub]
    exact deleteUserApply_status _ _ _
  · rw [deleteUserHandler_self s r id hid hsub, deleteUserApply_calls]
    simp

/-- C2 (as stated, refuted): user 7 patches itself with the body
`password = "longenough"`, which decodes and validates, on a server whose
password hash returns an error: the response is 500 and `PatchUser` is not
called. -/
theorem self_patch_hash_error_not_stored :
    GetSubject (userRequest "7" {} none "7") = .ok 7 ∧
    ParseInt ((userRequest "7" {} none "7").var "id") = some 7 ∧
    validatePatchUser { Password := some "longenough" } = true ∧
    failingHashServer.GenerateFromPassword "longenough" = none ∧
    patchUserHandler failingHashServer (userRequest "7" {} none "7")
        (some { Password := some "longenough" }) =
      ⟨StatusInternalServerError, .error, []⟩ := by
  decide

/-- C2 (witness): caller 7 with no role at all and no realm claim patches
itself with a new first name and a new password, and deletes itself: neither
response is Forbidden, the patch reaches `PatchUser` on id 7 and the delete
reaches `DeleteUser 7`. -/
theorem self_access_witness :
    (patchUserHandler exampleServer (userRequest "7" {} none "7")
        (some { FirstName := some "Al", Password := some "longenough" })).status ≠
      StatusForbidden ∧
    (∃ u : PatchUser, u.ID = 7 ∧
      (patchUserHandler exampleServer (userRequest "7" {} none "7")
        (some { FirstName := some "Al", Password := some "longenough" })).calls =
        [.PatchUser u]) ∧
    (deleteUserHandler exampleServer (userRequest "7" {} none "7")).status ≠ StatusForbidden ∧
    (deleteUserHandler exampleServer (userRequest "7" {} none "7")).calls = [.DeleteUser 7] :=
  ⟨((self_access exampleServer (userRequest "7" {} none "7") 7 (by decide) (by decide)).1
      (some { FirstName := some "Al", Password := some "longenough" })).1,
   (self_access exampleServer (userRequest "7" {} none "7") 7 (by decide) (by decide)).2.1
      { FirstName := some "Al", Password := some "longenough" } (by decide)
      (fun p _ h => by simp [exampleServer] at h),
   (self_access exampleServer (userRequest "7" {} none "7") 7 (by decide) (by decide)).2.2.1,
   (self_access exampleServer (userRequest "7" {} none "7") 7 (by decide) (by decide)).2.2.2⟩

/-! ## What the handlers hand to the store -/

theorem createUserHandler_calls (s : Server) (r : Request) (ru : requestUser) :
    (createUserHandler s r (some ru)).calls =
      if validateRequestUser (createUserClamp (GetRoles r) (GetRealmID r) ru) then
        match s.GenerateFromPassword (createUserClamp (GetRoles r) (GetRealmID r) ru).Password with
        | none => []
        | some hp =>
          [.CreateUser (createUserRecord (createUserClamp (GetRoles r) (GetRealmID r) ru) hp)]
      else [] := by
  unfold createUserHandler
  simp only []
  cases hv : validateRequestUser (createUserClamp (GetRoles r) (GetRealmID r) ru)
  · simp [Respond]
  · simp only [Bool.not_true, Bool.false_eq_true, if_false, if_true]
    cases hh : s.GenerateFromPassword (createUserClamp (GetRoles r) (GetRealmID r) ru).Password
    · simp [Error]
    · simp only []
      split <;> simp [Error, Respond, createUserRecord]

theorem createUserHandler_calls_none (s : Server) (r : Request) :
    (createUserHandler s r none).calls = [] := by
  simp [createUserHandler, Error]

theorem createUserClamp_Roles (roles : Roles) (realm : Except String Int) (ru : requestUser) :
    (createUserClamp roles realm ru).Roles = specClamp roles realm ru.RealmID ru.Roles := by
  unfold createUserClamp specClamp
  rcases roles with ⟨sa, a, v⟩
  rcases ru with ⟨un, pw, rid, fn, ln, ⟨rsa, ra, rv⟩⟩
  cases sa <;> cases a <;> cases realm <;> simp
  all_goals (split <;> simp_all)

theorem createUserClamp_fields (roles : Roles) (realm : Except String Int) (ru : requestUser) :
    (createUserClamp roles realm ru).Username = ru.Username ∧
    (createUserClamp roles realm ru).Password = ru.Password ∧
    (createUserClamp roles realm ru).RealmID = ru.RealmID ∧
    (createUserClamp roles realm ru).FirstName = ru.FirstName ∧
    (createUserClamp roles realm ru).LastName = ru.LastName := by
  unfold createUserClamp
  rcases roles with ⟨sa, a, v⟩
  cases sa <;> cases a <;> cases realm <;> simp
  all_goals (split <;> simp_all)

theorem mem_patchUserHandler (s : Server) (r : Request) (body : Option patchUser)
    (u : PatchUser) (h : StoreCall.PatchUser u ∈ (patchUserHandler s r body).calls) :
    ∃ targetID ru, body = some ru ∧ ParseInt (r.var "id") = some targetID ∧
      validatePatchUser ru = true ∧
      patchUserBuild s targetID (patchUserClamp (GetRoles r) ru) = some u := by
  unfold patchUserHandler at h
  cases hid : ParseInt (r.var "id") with
  | none => simp [hid, Error] at h
  | some targetID =>
    cases hsub : GetSubject r with
    | error e => simp [hid, hsub, Error] at h
    | ok subjectID =>
      simp only [hid, hsub] at h
      split at h
      · simp [Error] at h
      · cases body with
        | none => simp [Error] at h
        | some ru =>
          refine ⟨targetID, ru, rfl, rfl, ?_⟩
          simp only [] at h
          split at h
          · split at h
            · simp [Error] at h
            · split at h
              · simp [Error] at h
              · split at h
                · simp [Error] at h
                · rw [mem_patchUserApply] at h
                  simpa using h
          · rw [mem_patchUserApply] at h
            simpa using h

theorem patchUserBuild_fields (s : Server) (targetID : Int) (ru : patchUser) (u : PatchUser)
    (h : patchUserBuild s targetID ru = some u) :
    u.ID = targetID ∧ u.Username = ru.Username ∧ u.Roles = ru.Roles ∧
    u.FirstName = ru.FirstName ∧ u.LastName = ru.LastName ∧ u.Stars = ru.Stars ∧
    u.HashedPassword = ru.Password.bind s.GenerateFromPassword := by
  unfold patchUserBuild at h
  simp only [] at h
  cases hp : ru.Password with
  | none =>
    simp only [hp, Option.some.injEq] at h
    subst h
    simp
  | some p =>
    simp only [hp] at h
    cases hh : s.GenerateFromPassword p with
    | none => simp [hh] at h
    | some hashed =>
      simp only [hh, Option.some.injEq] at h
      subst h
      simp [hh]

theorem patchUserClamp_fields (roles : Roles) (ru : patchUser) :
    (patchUserClamp roles ru).Username = ru.Username ∧
    (patchUserClamp roles ru).FirstName = ru.FirstName ∧
    (patchUserClamp roles ru).LastName = ru.LastName ∧
    (patchUserClamp roles ru).Stars = ru.Stars := by
  unfold patchUserClamp
  cases roles.IsAdmin <;> cases roles.IsSuperAdmin <;> cases hr : ru.Roles <;> simp [hr]

theorem patchUserClamp_Roles (roles : Roles) (ru : patchUser) :
    (patchUserClamp roles ru).Roles =
      if !roles.IsAdmin && !roles.IsSuperAdmin then none
      else if !roles.IsSuperAdmin then
        ru.Roles.map fun rs => { rs with IsSuperAdmin := false }
      else ru.Roles := by
  unfold patchUserClamp
  cases roles.IsAdmin <;> cases roles.IsSuperAdmin <;> cases hr : ru.Roles <;> simp [hr]

/-! ## Role clamping -/

/-- C3: for a caller whose roles have `IsSuperAdmin = false` (an absent roles
value included) and every decoded body, every user `createUserHandler` passes
to `CreateUser` has `Roles.IsSuperAdmin = false`, and every patch
`patchUserHandler` passes to `PatchUser` carries no roles or roles with
`IsSuperAdmin = false`. -/
theorem no_super_admin_escalation (s : Server) (r : Request)
    (hns : (GetRoles r).IsSuperAdmin = false) :
    (∀ (body : Option requestUser) (u : User),
      StoreCall.CreateUser u ∈ (createUserHandler s r body).calls →
        u.Roles.IsSuperAdmin = false) ∧
    (∀ (body : Option patchUser) (u : PatchUser),
      StoreCall.PatchUser u ∈ (patchUserHandler s r body).calls →
        u.Roles = none ∨ ∃ rs, u.Roles = some rs ∧ rs.IsSuperAdmin = false) := by
  constructor
  · intro body u hu
    cases body with
    | none => simp [createUserHandler_calls_none] at hu
    | some ru =>
      rw [createUserHandler_calls] at hu
      split at hu
      · split at hu
        · simp at hu
        · simp only [List.mem_singleton, StoreCall.CreateUser.injEq] at hu
          subst hu
          simp [createUserRecord, createUserClamp_Roles, specClamp, hns]
      · simp at hu
  · intro body u hu
    obtain ⟨targetID, ru, _, _, _, hb⟩ := mem_patchUserHandler s r body u hu
    have hr := (patchUserBuild_fields s targetID _ u hb).2.2.1
    rw [patchUserClamp_Roles, hns] at hr
    cases ha : (GetRoles r).IsAdmin
    · left
      simpa [ha] using hr
    · cases hrr : ru.Roles with
      | none => left; simpa [ha, hrr] using hr
      | some rs => right; exact ⟨_, by simpa [ha, hrr] using hr, rfl⟩

/-- C3 (witness): an admin of realm 5 asks for a super-admin in realm 5, by
create and by patch of itself; the store receives `IsSuperAdmin = false`. -/
theorem no_super_admin_escalation_witness :
    (createUserHandler exampleServer (userRequest "1" { IsAdmin := true } (some 5) "")
        (some { Username := "dana", Password := "password", RealmID := 5, FirstName := "D",
                LastName := "A", Roles := { IsSuperAdmin := true, IsAdmin := true } })).calls =
      [.CreateUser { Username := "dana", HashedPassword := "hash:password", RealmID := 5,
                     FirstName := "D", LastName := "A", Roles := { IsAdmin := true } }] ∧
    (∀ u, StoreCall.PatchUser u ∈
        (patchUserHandler exampleServer (userRequest "1" { IsAdmin := true } (some 5) "1")
          (some { Roles := some { IsSuperAdmin := true } })).calls →
      u.Roles = none ∨ ∃ rs, u.Roles = some rs ∧ rs.IsSuperAdmin = false) ∧
    (patchUserHandler exampleServer (userRequest "1" { IsAdmin := true } (some 5) "1")
        (some { Roles := some { IsSuperAdmin := true } })).calls =
      [.PatchUser { ID := 1, Roles := some {} }] :=
  ⟨by decide,
   (no_super_admin_escalation exampleServer (userRequest "1" { IsAdmin := true } (some 5) "1")
      (by decide)).2 (some { Roles := some { IsSuperAdmin := true } }),
   by decide⟩

/-- C4: the roles `createUserHandler` goes on with, and stores, are the
specification's clamping `specClamp` of the requested roles, for every caller
roles, realm claim and request: whenever `CreateUser` is called its user
carries `specClamp` of the requested roles and the requested realm, and it is
called whenever the request validates and the hash succeeds. A super-admin's
request is stored unchanged, an admin creating in its own realm keeps the
requested `IsAdmin` and `IsVerified`, and no flag is turned from false to
true. -/
theorem createUser_roles_eq_specClamp (s : Server) (r : Request) (ru : requestUser) :
    (createUserClamp (GetRoles r) (GetRealmID r) ru).Roles =
      specClamp (GetRoles r) (GetRealmID r) ru.RealmID ru.Roles ∧
    (∀ u, StoreCall.CreateUser u ∈ (createUserHandler s r (some ru)).calls →
      u.Roles = specClamp (GetRoles r) (GetRealmID r) ru.RealmID ru.Roles ∧
      u.RealmID = ru.RealmID) ∧
    (∀ hp, validateRequestUser ru = true → s.GenerateFromPassword ru.Password = some hp →
      (createUserHandler s r (some ru)).calls =
        [.CreateUser { Username := ru.Username, HashedPassword := hp, RealmID := ru.RealmID,
                       FirstName := ru.FirstName, LastName := ru.LastName,
                       Roles := specClamp (GetRoles r) (GetRealmID r) ru.RealmID ru.Roles }]) ∧
    ((GetRoles r).IsSuperAdmin = true →
      specClamp (GetRoles r) (GetRealmID r) ru.RealmID ru.Roles = ru.Roles) ∧
    ((GetRoles r).IsAdmin = true → GetRealmID r = .ok ru.RealmID →
      (specClamp (GetRoles r) (GetRealmID r) ru.RealmID ru.Roles).IsAdmin = ru.Roles.IsAdmin ∧
      (specClamp (GetRoles r) (GetRealmID r) ru.RealmID ru.Roles).IsVerified =
        ru.Roles.IsVerified) ∧
    ((specClamp (GetRoles r) (GetRealmID r) ru.RealmID ru.Roles).IsSuperAdmin = true →
      ru.Roles.IsSuperAdmin = true) ∧
    ((specClamp (GetRoles r) (GetRealmID r) ru.RealmID ru.Roles).IsAdmin = true →
      ru.Roles.IsAdmin = true) ∧
    ((specClamp (GetRoles r) (GetRealmID r) ru.RealmID ru.Roles).IsVerified = true →
      ru.Roles.IsVerified = true) := by
  have hf := createUserClamp_fields (GetRoles r) (GetRealmID r) ru
  have hval : validateRequestUser (createUserClamp (GetRoles r) (GetRealmID r) ru) =
      validateRequestUser ru := by
    unfold validateRequestUser
    rw [hf.1, hf.2.1, hf.2.2.1, hf.2.2.2.1, hf.2.2.2.2]
  refine ⟨createUserClamp_Roles _ _ _, ?_, ?_, ?_, ?_, ?_, ?_, ?_⟩
  · intro u hu
    rw [createUserHandler_calls] at hu
    split at hu
    · split at hu
      · simp at hu
      · simp only [List.mem_singleton, StoreCall.CreateUser.injEq] at hu
        subst hu
        simp [createUserRecord, createUserClamp_Roles, hf.2.2.1]
    · simp at hu
  · intro hp hv hh
    rw [createUserHandler_calls, hval, hv, hf.2.1, hh]
    simp [createUserRecord, createUserClamp_Roles, hf]
  · intro hsa
    rcases hru : ru.Roles with ⟨rsa, ra, rv⟩
    simp [specClamp, hsa]
  · intro ha hrealm
    simp [specClamp, ha, hrealm]
  · simp only [specClamp]
    split <;> simp
  · simp only [specClamp]
    split <;> simp
  · simp only [specClamp]
    split <;> simp

/-- C4 (witness): an admin of realm 5 creates a verified admin in realm 5
(flags kept) and asks for the same in realm 6 (flags cleared). -/
theorem createUser_roles_eq_specClamp_witness :
    (createUserHandler exampleServer (userRequest "1" { IsAdmin := true } (some 5) "")
        (some { Username := "dana", Password := "password", RealmID := 5, FirstName := "D",
                LastName := "A", Roles := { IsAdmin := true, IsVerified := true } })).calls =
      [.CreateUser { Username := "dana", HashedPassword := "hash:password", RealmID := 5,
                     FirstName := "D", LastName := "A",
                     Roles := specClamp { IsAdmin := true } (.ok 5) 5
                       { IsAdmin := true, IsVerified := true } }] ∧
    specClamp { IsAdmin := true } (.ok 5) 5 { IsAdmin := true, IsVerified := true } =
      { IsAdmin := true, IsVerified := true } ∧
    specClamp { IsAdmin := true } (.ok 5) 6 { IsAdmin := true, IsVerified := true } = {} :=
  ⟨(createUser_roles_eq_specClamp exampleServer
      (userRequest "1" { IsAdmin := true } (some 5) "")
      { Username := "dana", Password := "password", RealmID := 5, FirstName := "D",
        LastName := "A", Roles := { IsAdmin := true, IsVerified := true } }).2.2.1
      "hash:password" (by decide) (by decide),
   by decide, by decide⟩

/-- C5: for a caller that is neither admin nor super-admin and every decoded
body, every patch `patchUserHandler` passes to `PatchUser` has `Roles = none`
while username, names and stars are the requested ones and the hashed
password is the hash of the requested password, if any; applied as a partial
update, such a patch leaves the stored roles unchanged. The store is reached
for every body that validates and hashes, on the caller's own id. -/
theorem plain_caller_patch_carries_no_roles (s : Server) (r : Request)
    (hna : (GetRoles r).IsAdmin = false) (hns : (GetRoles r).IsSuperAdmin = false) :
    (∀ (ru : patchUser) (u : PatchUser),
      StoreCall.PatchUser u ∈ (patchUserHandler s r (some ru)).calls →
        u.Roles = none ∧ u.Username = ru.Username ∧ u.FirstName = ru.FirstName ∧
        u.LastName = ru.LastName ∧ u.Stars = ru.Stars ∧
        u.HashedPassword = ru.Password.bind s.GenerateFromPassword ∧
        ∀ stored : User, (applyPatchUser stored u).Roles = stored.Roles) ∧
    (∀ (id : Int) (ru : patchUser), ParseInt (r.var "id") = some id → GetSubject r = .ok id →
      validatePatchUser ru = true →
      (∀ p, ru.Password = some p → s.GenerateFromPassword p ≠ none) →
      (patchUserHandler s r (some ru)).calls =
        [.PatchUser { ID := id, Username := ru.Username, Roles := none,
                      FirstName := ru.FirstName, LastName := ru.LastName, Stars := ru.Stars,
                      HashedPassword := ru.Password.bind s.GenerateFromPassword }]) := by
  constructor
  · intro ru u hu
    obtain ⟨targetID, ru2, hbody, _, _, hb⟩ := mem_patchUserHandler s r (some ru) u hu
    simp only [Option.some.injEq] at hbody
    subst hbody
    have hfield := patchUserBuild_fields s targetID _ u hb
    have hcl := patchUserClamp_fields (GetRoles r) ru
    have hroles : u.Roles = none := by
      rw [hfield.2.2.1, patchUserClamp_Roles, hna, hns]
      simp
    refine ⟨hroles, ?_, ?_, ?_, ?_, ?_, ?_⟩
    · rw [hfield.2.1, hcl.1]
    · rw [hfield.2.2.2.1, hcl.2.1]
    · rw [hfield.2.2.2.2.1, hcl.2.2.1]
    · rw [hfield.2.2.2.2.2.1, hcl.2.2.2]
    · rw [hfield.2.2.2.2.2.2, patchUserClamp_Password]
    · intro stored
      simp [applyPatchUser, hroles]
  · intro id ru hid hsub hv hp
    rw [patchUserHandler_self s r id ru hid hsub]
    have hp2 : ∀ p, (patchUserClamp (GetRoles r) ru).Password = some p →
        s.GenerateFromPassword p ≠ none := by
      simpa [patchUserClamp_Password] using hp
    obtain ⟨u, hu⟩ := (patchUserBuild_isSome s id _).2 hp2
    have hfield := patchUserBuild_fields s id _ u hu
    have hcl := patchUserClamp_fields (GetRoles r) ru
    have hroles : u.Roles = none := by
      rw [hfield.2.2.1, patchUserClamp_Roles, hna, hns]
      simp
    have hcalls : (patchUserApply s id (GetRoles r) ru []).calls = [.PatchUser u] := by
      unfold patchUserApply
      simp only [validatePatchUser_clamp, hv, hu, Bool.not_true, Bool.false_eq_true, if_false,
        List.nil_append]
      split <;> rfl
    rw [hcalls]
    rcases u with ⟨uid, un, uh, ur, uf, ul, us⟩
    simp only [List.cons.injEq, StoreCall.PatchUser.injEq, PatchUser.mk.injEq, and_true]
    simp only [patchUserClamp_Password] at hfield
    exact ⟨hfield.1, by rw [hfield.2.1, hcl.1], hfield.2.2.2.2.2.2, hroles,
      by rw [hfield.2.2.2.1, hcl.2.1], by rw [hfield.2.2.2.2.1, hcl.2.2.1],
      by rw [hfield.2.2.2.2.2.1, hcl.2.2.2]⟩

/-- C5 (witness): the verified-only user 7 asks, on itself, for a new
username together with every role; the store receives the username and no
roles. -/
theorem plain_caller_patch_carries_no_roles_witness :
    (patchUserHandler exampleServer (userRequest "7" { IsVerified := true } (some 5) "7")
        (some { Username := some "alice2",
                Roles := some { IsSuperAdmin := true, IsAdmin := true, IsVerified := true } })).calls =
      [.PatchUser { ID := 7, Username := some "alice2", Roles := none }] :=
  (plain_caller_patch_carries_no_roles exampleServer
      (userRequest "7" { IsVerified := true } (some 5) "7") (by decide) (by decide)).2 7
    { Username := some "alice2",
      Roles := some { IsSuperAdmin := true, IsAdmin := true, IsVerified := true } }
    (by decide) (by decide) (by decide) (by simp)

/-! ## Comments -/

/-- Store calls of `putMatchTeamComment` on a decoded body. -/
theorem putMatchTeamComment_calls (s : Server) (r : Request) (body : Option Comment) :
    (putMatchTeamComment s r body).calls =
      .CheckMatchKeyExists (fullMatchKey (r.var "eventKey") (r.var "matchKey")) ::
        match s.Store.CheckMatchKeyExists (fullMatchKey (r.var "eventKey") (r.var "matchKey")),
          body, GetSubject r, GetRealmID r with
        | .ok true, some comment, .ok reporterID, .ok realmID =>
          [.UpsertMatchTeamComment
            { comment with
              EventKey := r.var "eventKey"
              MatchKey := fullMatchKey (r.var "eventKey") (r.var "matchKey")
              TeamKey := r.var "teamKey"
              ReporterID := some reporterID
              RealmID := some realmID }]
        | _, _, _, _ => [] := by
  unfold putMatchTeamComment
  simp only []
  cases hc : s.Store.CheckMatchKeyExists (fullMatchKey (r.var "eventKey") (r.var "matchKey")) with
  | error e => simp [Error]
  | ok b =>
    cases b with
    | false => simp [Error]
    | true =>
      cases body with
      | none => simp [Error]
      | some comment =>
        cases hs : GetSubject r with
        | error e => simp [Error]
        | ok reporterID =>
          cases hr : GetRealmID r with
          | error e => simp [Error]
          | ok realmID =>
            simp only []
            split <;> simp [Error]

/-- C6: whenever `putMatchTeamComment` calls `UpsertMatchTeamComment`, the
record has the caller's subject as `ReporterID`, the caller's realm claim as
`RealmID`, and `EventKey`, `MatchKey` (event key, underscore, route match key)
and `TeamKey` from the route, whatever the body; the record is the body with
exactly those five fields replaced, so two bodies that differ only there
upsert the same record; the upsert happens for every body once the match
exists and subject and realm are present; and with a missing subject or realm
claim no upsert happens. -/
theorem putMatchTeamComment_forces_identity (s : Server) (r : Request) :
    (∀ (body : Option Comment) (c : Comment),
      StoreCall.UpsertMatchTeamComment c ∈ (putMatchTeamComment s r body).calls →
        ∃ b sub realm, body = some b ∧ GetSubject r = .ok sub ∧ GetRealmID r = .ok realm ∧
          c.ReporterID = some sub ∧ c.RealmID = some realm ∧
          c.EventKey = r.var "eventKey" ∧
          c.MatchKey = r.var "eventKey" ++ "_" ++ r.var "matchKey" ∧
          c.TeamKey = r.var "teamKey" ∧ c.ID = b.ID ∧ c.Text = b.Text) ∧
    (∀ (b1 b2 : Comment) (c1 c2 : Comment),
      StoreCall.UpsertMatchTeamComment c1 ∈ (putMatchTeamComment s r (some b1)).calls →
      StoreCall.UpsertMatchTeamComment c2 ∈ (putMatchTeamComment s r (some b2)).calls →
        c1.ReporterID = c2.ReporterID ∧ c1.RealmID = c2.RealmID ∧
        c1.EventKey = c2.EventKey ∧ c1.MatchKey = c2.MatchKey ∧ c1.TeamKey = c2.TeamKey ∧
        (b1.ID = b2.ID → b1.Text = b2.Text → c1 = c2)) ∧
    (∀ (b : Comment) (sub realm : Int),
      s.Store.CheckMatchKeyExists (fullMatchKey (r.var "eventKey") (r.var "matchKey")) =
        .ok true →
      GetSubject r = .ok sub → GetRealmID r = .ok realm →
      (putMatchTeamComment s r (some b)).calls =
        [.CheckMatchKeyExists (fullMatchKey (r.var "eventKey") (r.var "matchKey")),
         .UpsertMatchTeamComment
           { ID := b.ID, Text := b.Text, EventKey := r.var "eventKey",
             MatchKey := r.var "eventKey" ++ "_" ++ r.var "matchKey",
             TeamKey := r.var "teamKey", ReporterID := some sub, RealmID := some realm }]) ∧
    (∀ (body : Option Comment) (c : Comment),
      (GetSubject r).toOption = none ∨ (GetRealmID r).toOption = none →
        StoreCall.UpsertMatchTeamComment c ∉ (putMatchTeamComment s r body).calls) := by
  have key : ∀ (body : Option Comment) (c : Comment),
      StoreCall.UpsertMatchTeamComment c ∈ (putMatchTeamComment s r body).calls →
        ∃ b sub realm, body = some b ∧ GetSubject r = .ok sub ∧ GetRealmID r = .ok realm ∧
          c = { ID := b.ID, Text := b.Text, EventKey := r.var "eventKey",
                MatchKey := r.var "eventKey" ++ "_" ++ r.var "matchKey",
                TeamKey := r.var "teamKey", ReporterID := some sub, RealmID := some realm } := by
    intro body c hc
    rw [putMatchTeamComment_calls] at hc
    simp only [List.mem_cons, reduceCtorEq, false_or] at hc
    split at hc
    · rename_i b sub realm hex hsub hrealm
      simp only [List.mem_singleton, StoreCall.UpsertMatchTeamComment.injEq] at hc
      exact ⟨b, sub, realm, rfl, hsub, hrealm, by rw [hc]; rfl⟩
    · simp at hc
  refine ⟨?_, ?_, ?_, ?_⟩
  · intro body c hc
    obtain ⟨b, sub, realm, hbody, hsub, hrealm, rfl⟩ := key body c hc
    exact ⟨b, sub, realm, hbody, hsub, hrealm, rfl, rfl, rfl, rfl, rfl, rfl, rfl⟩
  · intro b1 b2 c1 c2 h1 h2
    obtain ⟨b, sub, realm, hbody, hsub, hrealm, rfl⟩ := key _ c1 h1
    obtain ⟨b', sub', realm', hbody', hsub', hrealm', rfl⟩ := key _ c2 h2
    simp only [Option.some.injEq] at hbody hbody'
    subst hbody hbody'
    rw [hsub] at hsub'
    rw [hrealm] at hrealm'
    simp only [Except.ok.injEq] at hsub' hrealm'
    subst hsub' hrealm'
    refine ⟨rfl, rfl, rfl, rfl, rfl, ?_⟩
    intro hid htext
    rw [hid, htext]
  · intro b sub realm hex hsub hrealm
    rw [putMatchTeamComment_calls, hex, hsub, hrealm]
    rfl
  · intro body c hmiss hc
    obtain ⟨b, sub, realm, _, hsub, hrealm, _⟩ := key body c hc
    rw [hsub, hrealm] at hmiss
    simp [Except.toOption] at hmiss

/-- C6 (witness): the plain user 9 of realm 3 comments on team frc254 in match
qm1 of event 2024casd with a body naming reporter 1 and realm 8; the record
upserted carries reporter 9 and realm 3. -/
theorem putMatchTeamComment_forces_identity_witness :
    (putMatchTeamComment exampleServer
        { subject := some (.str "9"), realm := some (.int64 3),
          vars := [("eventKey", "2024casd"), ("matchKey", "qm1"), ("teamKey", "frc254")] }
        (some { ReporterID := some 1, RealmID := some 8, MatchKey := "other",
                Text := "fast" })).calls =
      [.CheckMatchKeyExists "2024casd_qm1",
       .UpsertMatchTeamComment
         { EventKey := "2024casd", MatchKey := "2024casd_qm1", TeamKey := "frc254",
           ReporterID := some 9, RealmID := some 3, Text := "fast" }] :=
  (putMatchTeamComment_forces_identity exampleServer
      { subject := some (.str "9"), realm := some (.int64 3),
        vars := [("eventKey", "2024casd"), ("matchKey", "qm1"), ("teamKey", "frc254")] }).2.2.1
    { ReporterID := some 1, RealmID := some 8, MatchKey := "other", Text := "fast" } 9 3
    (by decide) (by decide) (by decide)

/-- C7 (code evaluated): for a caller who is not super-admin, the realm
pointer the comment handlers pass to the realm-scoped query is nil exactly
when the realm claim is present and points to 0 exactly when it is missing or
of another type; on a request of realm 3 the store is asked with no realm, on
a request without realm claim it is asked with realm 0. -/
theorem comments_realm_scope_inverted :
    (∀ (r : Request) (realm : Int), GetRealmID r = .ok realm → commentsRealmID r = none) ∧
    (∀ (r : Request), (GetRealmID r).toOption = none → commentsRealmID r = some 0) ∧
    (getMatchTeamComments exampleServer
        { subject := some (.str "9"), roles := some (.roles {}), realm := some (.int64 3),
          vars := [("eventKey", "2024casd"), ("matchKey", "qm1"), ("teamKey", "frc254")] }).calls =
      [.GetMatchTeamCommentsForRealm "2024casd_qm1" "frc254" none] ∧
    (getMatchTeamComments exampleServer
        { vars := [("eventKey", "2024casd"), ("matchKey", "qm1"), ("teamKey", "frc254")] }).calls =
      [.GetMatchTeamCommentsForRealm "2024casd_qm1" "frc254" (some 0)] ∧
    (getEventComments exampleServer
        { subject := some (.str "9"), roles := some (.roles {}), realm := some (.int64 3),
          vars := [("eventKey", "2024casd"), ("teamKey", "frc254")] }).calls =
      [.GetEventTeamCommentsForRealm "2024casd" "frc254" none] ∧
    (getEventComments exampleServer
        { realm := some .other,
          vars := [("eventKey", "2024casd"), ("teamKey", "frc254")] }).calls =
      [.GetEventTeamCommentsForRealm "2024casd" "frc254" (some 0)] := by
  refine ⟨?_, ?_, by decide, by decide, by decide, by decide⟩
  · intro r realm h
    simp [commentsRealmID, h]
  · intro r h
    unfold commentsRealmID
    cases hr : GetRealmID r with
    | error e => rfl
    | ok v => simp [hr, Except.toOption] at h

/-! ## Reading an identity -/

/-- C8: for a caller with a parseable subject and an existing target
identity, `getUserByIDHandler` returns the identity (200) iff the rule
`mayReadUser` holds (the caller reads itself, or is super-admin, or is admin
with a realm claim equal to the target's realm), and otherwise responds
Forbidden with no identity data; a caller who is neither admin nor
super-admin asking for another identity is refused with no store call, and an
admin who is not super-admin never gets an identity of another realm. -/
theorem getUserByIDHandler_authorization (s : Server) (r : Request) (id sub : Int)
    (user : User)
    (hid : ParseInt (r.var "id") = some id)
    (hsub : GetSubject r = .ok sub)
    (hget : s.Store.GetUserByID id = .ok user) :
    (getUserByIDHandler s r =
      if mayReadUser sub id (GetRoles r) (GetRealmID r) user.RealmID then
        Respond (.user user) StatusOK [.GetUserByID id]
      else
        Error StatusForbidden (if (GetRoles r).IsAdmin then [.GetUserByID id] else [])) ∧
    ((getUserByIDHandler s r).payload = .user user ↔
      mayReadUser sub id (GetRoles r) (GetRealmID r) user.RealmID = true) ∧
    ((getUserByIDHandler s r).status = StatusForbidden ↔
      mayReadUser sub id (GetRoles r) (GetRealmID r) user.RealmID = false) ∧
    ((GetRoles r).IsAdmin = false → (GetRoles r).IsSuperAdmin = false → sub ≠ id →
      getUserByIDHandler s r = Error StatusForbidden []) ∧
    ((GetRoles r).IsSuperAdmin = false → sub ≠ id → GetRealmID r ≠ .ok user.RealmID →
      (getUserByIDHandler s r).status = StatusForbidden ∧
      (getUserByIDHandler s r).payload = .error) := by
  have main : getUserByIDHandler s r =
      if mayReadUser sub id (GetRoles r) (GetRealmID r) user.RealmID then
        Respond (.user user) StatusOK [.GetUserByID id]
      else
        Error StatusForbidden (if (GetRoles r).IsAdmin then [.GetUserByID id] else []) := by
    unfold getUserByIDHandler mayReadUser
    simp only [hid, hsub, hget]
    generalize GetRoles r = roles
    generalize GetRealmID r = realm
    rcases roles with ⟨sa, a, v⟩
    by_cases hsi : sub = id
    · subst hsi
      cases sa <;> cases a <;> simp
    · have hb : (sub != id) = true := by simpa using hsi
      cases sa <;> cases a <;> cases realm <;> simp [hb, hsi]
  refine ⟨main, ?_, ?_, ?_, ?_⟩
  · rw [main]
    cases mayReadUser sub id (GetRoles r) (GetRealmID r) user.RealmID <;> simp [Error, Respond]
  · rw [main]
    cases mayReadUser sub id (GetRoles r) (GetRealmID r) user.RealmID <;>
      simp [Error, Respond, StatusOK, StatusForbidden]
  · intro ha hsa hne
    rw [main]
    simp [mayReadUser, ha, hsa, hne]
  · intro hsa hne hrealm
    rw [main]
    have hfalse : mayReadUser sub id (GetRoles r) (GetRealmID r) user.RealmID = false := by
      unfold mayReadUser
      cases hr : GetRealmID r with
      | error e => simp [hsa, hne]
      | ok v =>
        have : v ≠ user.RealmID := by
          intro h
          exact hrealm (by rw [hr, h])
        simp [hsa, hne, this]
    simp [hfalse, Error]

/-- C8 (witness): an admin of realm 5 reads identity 7 of realm 5 and is
refused identity 8 of realm 6. -/
theorem getUserByIDHandler_authorization_witness :
    getUserByIDHandler exampleServer (userRequest "1" { IsAdmin := true } (some 5) "7") =
      Respond (.user { ID := 7, Username := "alice", RealmID := 5 }) StatusOK
        [.GetUserByID 7] ∧
    (getUserByIDHandler exampleServer
      (userRequest "1" { IsAdmin := true } (some 5) "8")).status = StatusForbidden :=
  ⟨(getUserByIDHandler_authorization exampleServer
      (userRequest "1" { IsAdmin := true } (some 5) "7") 7 1
      { ID := 7, Username := "alice", RealmID := 5 }
      (by decide) (by decide) (by decide)).1,
   (getUserByIDHandler_authorization exampleServer
      (userRequest "1" { IsAdmin := true } (some 5) "8") 8 1
      { ID := 8, Username := "bruno", RealmID := 6 }
      (by decide) (by decide) (by decide)).2.2.1.2 (by decide)⟩

/-! ## Upsert of reports -/

theorem filter_map_update {α : Type} (p : α → Bool) (upd : α → α)
    (hupd : ∀ a, p (upd a) = p a) (l : List α) :
    (l.map fun a => if p a then upd a else a).filter p = (l.filter p).map upd := by
  induction l with
  | nil => rfl
  | cons a l ih =>
    cases hp : p a
    · simp [List.filter_cons, hp, ih]
    · simp [List.filter_cons, hp, hupd, ih]

theorem filter_not_map_update {α : Type} (p : α → Bool) (upd : α → α)
    (hupd : ∀ a, p (upd a) = p a) (l : List α) :
    (l.map fun a => if p a then upd a else a).filter (fun a => !p a) =
      l.filter (fun a => !p a) := by
  induction l with
  | nil => rfl
  | cons a l ih =>
    cases hp : p a
    · simp [List.filter_cons, hp, ih]
    · simp [List.filter_cons, hp, hupd, ih]

theorem any_eq_false_iff_filter_nil {α : Type} (p : α → Bool) (l : List α) :
    l.any p = false ↔ l.filter p = [] := by
  induction l with
  | nil => simp
  | cons a l ih =>
    cases hp : p a <;> simp [List.filter_cons, hp, ih]

/-- On a proposed row with a non-null reporter, the conflict test is the
comparison of the three key columns. -/
theorem conflicts_eq_hasKey (r : Report) (rep : Int) (hrep : r.ReporterID = some rep) :
    conflicts r = fun row =>
      row.MatchKey == r.MatchKey && row.TeamKey == r.TeamKey && row.ReporterID == some rep := by
  funext row
  unfold conflicts sqlEq
  rw [hrep]
  cases hr : row.ReporterID <;> simp

/-- Rows with the key of `r` after `UpsertReport t r`, for a non-null
reporter: the inserted row when there was none, the former rows with
`auto_name` and `data` replaced otherwise. -/
theorem rowsWithKey_UpsertReport (t : Reports) (r : Report) (rep : Int)
    (hrep : r.ReporterID = some rep) :
    rowsWithKey (UpsertReport t r) r.MatchKey r.TeamKey (some rep) =
      if rowsWithKey t r.MatchKey r.TeamKey (some rep) = [] then [{ r with ID := t.nextID }]
      else (rowsWithKey t r.MatchKey r.TeamKey (some rep)).map fun old =>
        { old with AutoName := r.AutoName, Data := r.Data } := by
  unfold UpsertReport rowsWithKey
  rw [conflicts_eq_hasKey r rep hrep]
  cases hany : t.rows.any fun row =>
      row.MatchKey == r.MatchKey && row.TeamKey == r.TeamKey && row.ReporterID == some rep
  · have hnil := (any_eq_false_iff_filter_nil _ _).1 hany
    simp [hnil, hrep]
  · have hne : ¬ t.rows.filter (fun row =>
        row.MatchKey == r.MatchKey && row.TeamKey == r.TeamKey &&
          row.ReporterID == some rep) = [] := by
      intro h
      rw [← any_eq_false_iff_filter_nil, hany] at h
      exact Bool.noConfusion h
    simp only [if_true, hne, if_false]
    exact filter_map_update
      (fun row : Report =>
        row.MatchKey == r.MatchKey && row.TeamKey == r.TeamKey && row.ReporterID == some rep)
      (fun old => { old with AutoName := r.AutoName, Data := r.Data }) (fun _ => rfl) t.rows

/-- Rows with another key than the key of `r` are the same before and after
`UpsertReport t r`, for a non-null reporter. -/
theorem rowsWithOtherKey_UpsertReport (t : Reports) (r : Report) (rep : Int)
    (hrep : r.ReporterID = some rep) :
    rowsWithOtherKey (UpsertReport t r) r.MatchKey r.TeamKey (some rep) =
      rowsWithOtherKey t r.MatchKey r.TeamKey (some rep) := by
  unfold UpsertReport rowsWithOtherKey
  rw [conflicts_eq_hasKey r rep hrep]
  cases hany : t.rows.any fun row =>
      row.MatchKey == r.MatchKey && row.TeamKey == r.TeamKey && row.ReporterID == some rep
  · simp [hrep]
  · simp only [if_true]
    exact filter_not_map_update
      (fun row : Report =>
        row.MatchKey == r.MatchKey && row.TeamKey == r.TeamKey && row.ReporterID == some rep)
      (fun old => { old with AutoName := r.AutoName, Data := r.Data }) (fun _ => rfl) t.rows

/-- C9 (as stated, refuted): two upserts on the empty table with the key
`("qm1", "frc254", NULL)`: the null reporter never conflicts, both calls
insert, and two rows with that key remain, the first still carrying the first
payload. -/
theorem UpsertReport_null_reporter_two_rows :
    rowsWithKey
        (UpsertReport
          (UpsertReport {}
            { MatchKey := "qm1", TeamKey := "frc254", ReporterID := none, RealmID := some 3,
              AutoName := "left" })
          { MatchKey := "qm1", TeamKey := "frc254", ReporterID := none, RealmID := some 3,
            AutoName := "right" })
        "qm1" "frc254" none =
      [{ ID := 1, MatchKey := "qm1", TeamKey := "frc254", ReporterID := none,
         RealmID := some 3, AutoName := "left" },
       { ID := 2, MatchKey := "qm1", TeamKey := "frc254", ReporterID := none,
         RealmID := some 3, AutoName := "right" }] := by
  decide

/-- C9 (amended): for every natural key whose reporter id is not null, every
two payloads and every table holding at most one row with that key, two
sequential `UpsertReport` calls with that key leave exactly one row with that
key; its `auto_name` and `data` are the second call's; its `realm_id` and `id`
are those the row had after the first call, which is the first call's
`realm_id` when no row had the key before; and the rows with a different key
are unchanged. -/
theorem UpsertReport_twice (t : Reports) (r1 r2 : Report) (rep : Int)
    (hrep1 : r1.ReporterID = some rep) (hrep2 : r2.ReporterID = some rep)
    (hmatch : r2.MatchKey = r1.MatchKey) (hteam : r2.TeamKey = r1.TeamKey)
    (huniq : (rowsWithKey t r1.MatchKey r1.TeamKey (some rep)).length ≤ 1) :
    (∃ first final,
      rowsWithKey (UpsertReport t r1) r1.MatchKey r1.TeamKey (some rep) = [first] ∧
      rowsWithKey (UpsertReport (UpsertReport t r1) r2) r1.MatchKey r1.TeamKey (some rep) =
        [final] ∧
      final.AutoName = r2.AutoName ∧ final.Data = r2.Data ∧
      final.RealmID = first.RealmID ∧ final.ID = first.ID ∧
      (rowsWithKey t r1.MatchKey r1.TeamKey (some rep) = [] →
        first.RealmID = r1.RealmID ∧ first.AutoName = r1.AutoName ∧ first.Data = r1.Data)) ∧
    rowsWithOtherKey (UpsertReport (UpsertReport t r1) r2) r1.MatchKey r1.TeamKey (some rep) =
      rowsWithOtherKey t r1.MatchKey r1.TeamKey (some rep) := by
  have h1 := rowsWithKey_UpsertReport t r1 rep hrep1
  have h2 := rowsWithKey_UpsertReport (UpsertReport t r1) r2 rep hrep2
  have o1 := rowsWithOtherKey_UpsertReport t r1 rep hrep1
  have o2 := rowsWithOtherKey_UpsertReport (UpsertReport t r1) r2 rep hrep2
  rw [hmatch, hteam] at h2 o2
  refine ⟨?_, by rw [o2, o1]⟩
  match hrows : rowsWithKey t r1.MatchKey r1.TeamKey (some rep), huniq with
  | [], _ =>
    rw [hrows] at h1
    simp only [if_true] at h1
    rw [h1] at h2
    simp only [reduceCtorEq, if_false, List.map_cons, List.map_nil] at h2
    exact ⟨_, _, h1, h2, rfl, rfl, rfl, rfl, fun _ => ⟨rfl, rfl, rfl⟩⟩
  | [row], _ =>
    rw [hrows] at h1
    simp only [reduceCtorEq, if_false, List.map_cons, List.map_nil] at h1
    rw [h1] at h2
    simp only [reduceCtorEq, if_false, List.map_cons, List.map_nil] at h2
    exact ⟨_, _, h1, h2, rfl, rfl, rfl, rfl, fun h => by simp at h⟩
  | _ :: _ :: _, h => simp at h

/-- C9 (witness): reporter 9 reports twice on team frc254 in match qm1, from
the empty table; one row remains, with the second payload and the first
call's realm. -/
theorem UpsertReport_twice_witness :
    ∃ first final,
      rowsWithKey
        (UpsertReport {}
          { MatchKey := "qm1", TeamKey := "frc254", ReporterID := some 9, RealmID := some 3,
            AutoName := "left" }) "qm1" "frc254" (some 9) = [first] ∧
      rowsWithKey
        (UpsertReport
          (UpsertReport {}
            { MatchKey := "qm1", TeamKey := "frc254", ReporterID := some 9, RealmID := some 3,
              AutoName := "left" })
          { MatchKey := "qm1", TeamKey := "frc254", ReporterID := some 9, RealmID := some 4,
            AutoName := "right" }) "qm1" "frc254" (some 9) = [final] ∧
      final.AutoName = "right" ∧ final.Data = {} ∧
      final.RealmID = first.RealmID ∧ final.ID = first.ID ∧
      (rowsWithKey {} "qm1" "frc254" (some 9) = [] →
        first.RealmID = some 3 ∧ first.AutoName = "left" ∧ first.Data = {}) :=
  (UpsertReport_twice {}
    { MatchKey := "qm1", TeamKey := "frc254", ReporterID := some 9, RealmID := some 3,
      AutoName := "left" }
    { MatchKey := "qm1", TeamKey := "frc254", ReporterID := some 9, RealmID := some 4,
      AutoName := "right" } 9 rfl rfl rfl rfl (by decide)).1

/-! ## Storage faults in the user handlers -/

/-- C11 (code evaluated): in `getUsersHandler`, an error of `GetUsers` (caller
super-admin) gives 500, but an error of `GetUsersByRealm` (any other caller
with a realm claim) gives 200: it is assigned to the `err` declared inside the
branch, and the check after the branch reads the outer `err`. On the listing
of realm 5 failing, the plain caller gets 200 and an empty list. -/
theorem getUsersHandler_swallows_realm_listing_error :
    (∀ (s : Server) (r : Request) (e : StoreError),
      (GetRoles r).IsSuperAdmin = true → s.Store.GetUsers = .error e →
        (getUsersHandler s r).status = StatusInternalServerError) ∧
    (∀ (s : Server) (r : Request) (realmID : Int) (e : StoreError),
      (GetRoles r).IsSuperAdmin = false → GetRealmID r = .ok realmID →
      s.Store.GetUsersByRealm realmID = .error e →
        (getUsersHandler s r).status = StatusOK) ∧
    faultyStore.GetUsersByRealm 5 = .error .other ∧
    getUsersHandler faultyServer (userRequest "1" {} (some 5) "") =
      ⟨StatusOK, .users [], [.GetUsersByRealm 5]⟩ ∧
    getUsersHandler faultyServer (userRequest "1" { IsSuperAdmin := true } (some 5) "") =
      ⟨StatusInternalServerError, .error, [.GetUsers]⟩ := by
  refine ⟨?_, ?_, by decide, by decide, by decide⟩
  · intro s r e hsa hget
    simp [getUsersHandler, hsa, hget, Error]
  · intro s r realmID e hsa hrealm hget
    simp [getUsersHandler, hsa, hrealm, hget, Respond]

/-- C12 (code evaluated): when `GetUserByID` reports no result for the target
of an admin who is not super-admin, `patchUserHandler` and `deleteUserHandler`
respond 500, whatever the error; `getUserByIDHandler` answers the same lookup
with 404. Admin 1 of realm 5 on the absent identity 99 gets 500 from patch and
delete and 404 from get. -/
theorem patch_delete_missing_target_internal_error :
    (∀ (s : Server) (r : Request) (targetID subjectID : Int) (ru : patchUser),
      ParseInt (r.var "id") = some targetID → GetSubject r = .ok subjectID →
      targetID ≠ subjectID → (GetRoles r).IsAdmin = true → (GetRoles r).IsSuperAdmin = false →
      s.Store.GetUserByID targetID = .error .ErrNoResults →
        patchUserHandler s r (some ru) =
          Error StatusInternalServerError [.GetUserByID targetID] ∧
        deleteUserHandler s r = Error StatusInternalServerError [.GetUserByID targetID] ∧
        getUserByIDHandler s r = Error StatusNotFound [.GetUserByID targetID]) ∧
    exampleStore.GetUserByID 99 = .error .ErrNoResults ∧
    patchUserHandler exampleServer (userRequest "1" { IsAdmin := true } (some 5) "99")
        (some { FirstName := some "Al" }) =
      ⟨StatusInternalServerError, .error, [.GetUserByID 99]⟩ ∧
    deleteUserHandler exampleServer (userRequest "1" { IsAdmin := true } (some 5) "99") =
      ⟨StatusInternalServerError, .error, [.GetUserByID 99]⟩ ∧
    getUserByIDHandler exampleServer (userRequest "1" { IsAdmin := true } (some 5) "99") =
      ⟨StatusNotFound, .error, [.GetUserByID 99]⟩ := by
  refine ⟨?_, by decide, by decide, by decide, by decide⟩
  intro s r targetID subjectID ru hid hsub hne ha hsa hget
  have hb : (targetID != subjectID) = true := by simpa using hne
  refine ⟨?_, ?_, ?_⟩
  · simp [patchUserHandler, hid, hsub, hb, ha, hsa, hget]
  · simp [deleteUserHandler, hid, hsub, hb, ha, hsa, hget]
  · simp [getUserByIDHandler, hid, hsub, ha, hsa, hget]

/-! ## Match keys -/

theorem splitOn_length (sep : Char) (l : List Char) :
    (splitOn sep l).length = l.count sep + 1 := by
  induction l with
  | nil => rfl
  | cons c cs ih =>
    unfold splitOn
    by_cases h : c = sep
    · subst h
      simp [ih]
    · have hcount : (c :: cs).count sep = cs.count sep := by
        rw [List.count_cons_of_ne]
        exact fun e => h e.symm
      rw [if_neg h, hcount]
      cases hs : splitOn sep cs with
      | nil => simp [hs] at ih
      | cons p ps =>
        rw [hs] at ih
        simpa using ih

theorem splitOn_of_not_mem (sep : Char) (l : List Char) (h : sep ∉ l) :
    splitOn sep l = [l] := by
  induction l with
  | nil => rfl
  | cons c cs ih =>
    have hc : c ≠ sep := fun e => h (by simp [e])
    have hcs : sep ∉ cs := fun e => h (by simp [e])
    unfold splitOn
    rw [if_neg hc, ih hcs]

theorem splitOn_append_sep (sep : Char) (a b : List Char) (h : sep ∉ a) :
    splitOn sep (a ++ sep :: b) = a :: splitOn sep b := by
  induction a with
  | nil => simp [splitOn]
  | cons c cs ih =>
    have hc : c ≠ sep := fun e => h (by simp [e])
    have hcs : sep ∉ cs := fun e => h (by simp [e])
    rw [List.cons_append, splitOn, if_neg hc, ih hcs]

theorem fullMatchKey_toList (eventKey partialMatchKey : String) :
    (fullMatchKey eventKey partialMatchKey).toList =
      eventKey.toList ++ '_' :: partialMatchKey.toList := by
  simp [fullMatchKey, String.toList]

/-- C16: `trimMatchKey` undoes the prefixing of the handlers: for an event key
and a route match key without underscore, `trimMatchKey` of event key,
underscore, match key is the match key; and on every key whose number of
underscores is not one, `trimMatchKey` is the empty string. -/
theorem trimMatchKey_fullMatchKey :
    (∀ eventKey partialMatchKey : String,
      '_' ∉ eventKey.toList → '_' ∉ partialMatchKey.toList →
        trimMatchKey (fullMatchKey eventKey partialMatchKey) = partialMatchKey) ∧
    (∀ key : String, key.toList.count '_' ≠ 1 → trimMatchKey key = "") := by
  constructor
  · intro eventKey partialMatchKey he hp
    unfold trimMatchKey
    rw [fullMatchKey_toList, splitOn_append_sep _ _ _ he, splitOn_of_not_mem _ _ hp]
    rfl
  · intro key hcount
    unfold trimMatchKey
    have hlen := splitOn_length '_' key.toList
    split
    · rename_i a part hs
      rw [hs] at hlen
      simp only [List.length_cons, List.length_nil] at hlen
      omega
    · rfl

/-- C16 (witness): match `qm1` of event `2024casd`, and keys with no or two
underscores. -/
theorem trimMatchKey_fullMatchKey_witness :
    trimMatchKey (fullMatchKey "2024casd" "qm1") = "qm1" ∧
    trimMatchKey "2024casd" = "" ∧ trimMatchKey "2024casd_qm1_m2" = "" :=
  ⟨trimMatchKey_fullMatchKey.1 "2024casd" "qm1" (by decide) (by decide),
   trimMatchKey_fullMatchKey.2 "2024casd" (by decide),
   trimMatchKey_fullMatchKey.2 "2024casd_qm1_m2" (by decide)⟩

/-! ## Parsing and printing of 64-bit integers -/

theorem digitVal_digitChar (d : Nat) (h : d < 10) : digitVal (digitChar d) = some d := by
  interval_cases d <;> rfl

theorem digitVal_eq_some (c : Char) (d : Nat) (h : digitVal c = some d) :
    d < 10 ∧ c = digitChar d := by
  unfold digitVal at h
  split at h
  · rename_i hc
    simp only [Option.some.injEq] at h
    obtain ⟨h0, h9⟩ := hc
    have h0' : '0'.toNat ≤ c.toNat := h0
    have h9' : c.toNat ≤ '9'.toNat := h9
    have e0 : '0'.toNat = 48 := rfl
    have e9 : '9'.toNat = 57 := rfl
    rw [e0] at h0' h
    rw [e9] at h9'
    refine ⟨by omega, ?_⟩
    unfold digitChar
    rw [e0, ← h]
    have : 48 + (c.toNat - 48) = c.toNat := by omega
    rw [this, Char.ofNat_toNat]
  · simp at h

theorem le_foldl_decimal (ds : List Nat) (acc : Nat) :
    acc ≤ ds.foldl (fun a d => a * 10 + d) acc := by
  induction ds generalizing acc with
  | nil => exact Nat.le_refl _
  | cons d ds ih =>
    simp only [List.foldl_cons]
    exact Nat.le_trans (by omega) (ih (acc * 10 + d))

theorem parseUintLoop_digits (ds : List Nat) (acc : Nat) (hds : ∀ d ∈ ds, d < 10)
    (hacc : acc < 2 ^ 64) :
    parseUintLoop (ds.map digitChar) acc =
      if ds.foldl (fun a d => a * 10 + d) acc < 2 ^ 64 then
        some (ds.foldl (fun a d => a * 10 + d) acc)
      else none := by
  induction ds generalizing acc with
  | nil => simp only [List.map_nil, parseUintLoop, List.foldl_nil, if_pos hacc]
  | cons d ds ih =>
    have hd : d < 10 := hds d (by simp)
    have hrest : ∀ x ∈ ds, x < 10 := fun x hx => hds x (by simp [hx])
    simp only [List.map_cons, parseUintLoop, digitVal_digitChar d hd, List.foldl_cons]
    by_cases hlt : acc * 10 + d < 2 ^ 64
    · rw [if_pos hlt, ih (acc * 10 + d) hrest hlt]
    · rw [if_neg hlt]
      have := le_foldl_decimal ds (acc * 10 + d)
      rw [if_neg (by omega)]

theorem parseUintLoop_eq_some (cs : List Char) (acc v : Nat)
    (h : parseUintLoop cs acc = some v) :
    ∃ ds : List Nat, (∀ d ∈ ds, d < 10) ∧ cs = ds.map digitChar ∧
      v = ds.foldl (fun a d => a * 10 + d) acc := by
  induction cs generalizing acc with
  | nil =>
    simp only [parseUintLoop, Option.some.injEq] at h
    exact ⟨[], by simp, rfl, h.symm⟩
  | cons c cs ih =>
    simp only [parseUintLoop] at h
    cases hc : digitVal c with
    | none => simp [hc] at h
    | some d =>
      simp only [hc] at h
      split at h
      · obtain ⟨ds, hds, hcs, hv⟩ := ih _ h
        obtain ⟨hd, hcd⟩ := digitVal_eq_some c d hc
        refine ⟨d :: ds, ?_, ?_, ?_⟩
        · intro x hx
          simp only [List.mem_cons] at hx
          rcases hx with rfl | hx
          · exact hd
          · exact hds x hx
        · simp [hcd, hcs]
        · simpa using hv
      · simp at h

theorem digitChar_ne_sign (d : Nat) (h : d < 10) : digitChar d ≠ '+' ∧ digitChar d ≠ '-' := by
  interval_cases d <;> decide

theorem ParseUint_eq_some (cs : List Char) (un : Nat) (h : ParseUint cs = some un) :
    cs ≠ [] ∧ parseUintLoop cs 0 = some un := by
  cases cs with
  | nil => simp [ParseUint] at h
  | cons c cs => exact ⟨by simp, h⟩

theorem ParseUint_digits (ds : List Nat) (hne : ds ≠ []) (hds : ∀ d ∈ ds, d < 10)
    (hlt : decimalValue ds < 2 ^ 64) :
    ParseUint (ds.map digitChar) = some (decimalValue ds) := by
  have hloop := parseUintLoop_digits ds 0 hds (by norm_num)
  unfold decimalValue at hlt ⊢
  rw [if_pos hlt] at hloop
  cases ds with
  | nil => exact absurd rfl hne
  | cons d ds => exact hloop

/-- The parser `ParseInt` accepts exactly the base-10 int64 strings, with
their value. -/
theorem ParseInt_eq_some_iff (s : String) (n : Int) :
    ParseInt s = some n ↔ IsBase10Int64 s n := by
  unfold ParseInt IsBase10Int64 int64Min int64Max
  constructor
  · intro h
    cases hs : s.toList with
    | nil =>
      rw [hs] at h
      simp at h
    | cons c cs =>
      rw [hs] at h
      simp only [] at h
      cases hu : ParseUint (if c == '+' ∨ c == '-' then cs else c :: cs) with
      | none =>
        rw [hu] at h
        simp at h
      | some un =>
        rw [hu] at h
        simp only [] at h
        obtain ⟨hne, hloop⟩ := ParseUint_eq_some _ _ hu
        obtain ⟨ds, hds, hcs, hv⟩ := parseUintLoop_eq_some _ _ _ hloop
        have hdsne : ds ≠ [] := by
          intro e
          rw [e] at hcs
          exact hne (by simpa using hcs)
        have hval : decimalValue ds = un := hv.symm
        by_cases hplus : c = '+'
        · subst hplus
          simp only [beq_self_eq_true, true_or, if_true] at hcs
          refine ⟨['+'], ds, by simp, hdsne, hds, by simp [hcs], ?_⟩
          rw [hval]
          have hneg : (('+' : Char) == '-') = false := rfl
          simp only [hneg, Bool.not_false, Bool.true_and, Bool.false_and, Bool.false_eq_true,
            if_false, decide_eq_true_eq] at h
          split at h
          · simp at h
          · simp only [Option.some.injEq] at h
            subst h
            have : ¬ (['+'] = ['-']) := by decide
            rw [if_neg this]
            omega
        · by_cases hminus : c = '-'
          · subst hminus
            simp only [beq_self_eq_true, or_true, if_true] at hcs
            refine ⟨['-'], ds, by simp, hdsne, hds, by simp [hcs], ?_⟩
            rw [hval]
            simp only [beq_self_eq_true, Bool.not_true, Bool.false_and, Bool.false_eq_true,
              if_false, Bool.true_and, decide_eq_true_eq, if_true] at h
            split at h
            · simp at h
            · simp only [Option.some.injEq] at h
              subst h
              rw [if_pos rfl]
              omega
          · have hcond : ¬ ((c == '+') = true ∨ (c == '-') = true) := by
              simp [hplus, hminus]
            rw [if_neg hcond] at hcs
            have hneg : (c == '-') = false := by simpa using hminus
            refine ⟨[], ds, by simp, hdsne, hds, by simp [hcs], ?_⟩
            rw [hval]
            simp only [hneg, Bool.not_false, Bool.true_and, Bool.false_and, Bool.false_eq_true,
              if_false, decide_eq_true_eq] at h
            split at h
            · simp at h
            · simp only [Option.some.injEq] at h
              subst h
              have : ¬ (([] : List Char) = ['-']) := by decide
              rw [if_neg this]
              omega
  · rintro ⟨sign, ds, hsign, hdsne, hds, hs, hn, hlo, hhi⟩
    obtain ⟨d0, ds', rfl⟩ := List.exists_cons_of_ne_nil hdsne
    have hd0 : d0 < 10 := hds d0 (by simp)
    obtain ⟨hnp, hnm⟩ := digitChar_ne_sign d0 hd0
    have hparse := ParseUint_digits (d0 :: ds') hdsne hds
    generalize decimalValue (d0 :: ds') = v at hn hparse
    rw [hs]
    rcases hsign with rfl | rfl | rfl
    · have hnot : ¬ (([] : List Char) = ['-']) := by decide
      rw [if_neg hnot] at hn
      subst hn
      have hcond : ¬ ((digitChar d0 == '+') = true ∨ (digitChar d0 == '-') = true) := by
        simp [hnp, hnm]
      have hneg : (digitChar d0 == '-') = false := by simpa using hnm
      simp only [List.nil_append, List.map_cons]
      rw [if_neg hcond]
      simp only [hneg]
      rw [← List.map_cons, hparse (by omega)]
      simp only [Bool.not_false, Bool.true_and, Bool.false_and, Bool.false_eq_true, if_false,
        decide_eq_true_eq]
      rw [if_neg (by omega)]
    · have hnot : ¬ (['+'] = ['-']) := by decide
      rw [if_neg hnot] at hn
      subst hn
      have hneg : (('+' : Char) == '-') = false := rfl
      simp only [List.singleton_append, beq_self_eq_true, true_or, if_true, hneg]
      rw [hparse (by omega)]
      simp only [Bool.not_false, Bool.true_and, Bool.false_and, Bool.false_eq_true, if_false,
        decide_eq_true_eq]
      rw [if_neg (by omega)]
    · rw [if_pos rfl] at hn
      subst hn
      simp only [List.singleton_append, beq_self_eq_true, or_true, if_true]
      rw [hparse (by omega)]
      simp only [Bool.not_true, Bool.false_and, Bool.false_eq_true, if_false, Bool.true_and,
        decide_eq_true_eq]
      rw [if_neg (by omega)]

/-! ## Claims extraction -/

theorem GetSubject_eq_ok_iff (r : Request) (n : Int) :
    GetSubject r = .ok n ↔ ∃ s, r.subject = some (.str s) ∧ IsBase10Int64 s n := by
  unfold GetSubject
  cases hsub : r.subject with
  | none => simp
  | some v =>
    cases v with
    | str s =>
      simp only [Option.some.injEq, CtxValue.str.injEq, exists_eq_left', ← ParseInt_eq_some_iff]
      cases hp : ParseInt s <;> simp
    | int64 m => simp
    | roles x => simp
    | other => simp

theorem GetRealmID_eq_ok_iff (r : Request) (n : Int) :
    GetRealmID r = .ok n ↔ r.realm = some (.int64 n) := by
  unfold GetRealmID
  cases hrealm : r.realm with
  | none => simp
  | some v => cases v <;> simp

theorem exists_error_of_not_ok {α : Type} (x : Except String α) (h : ∀ a, x ≠ .ok a) :
    ∃ e, x = .error e := by
  cases x with
  | error e => exact ⟨e, rfl⟩
  | ok a => exact absurd rfl (h a)

/-- C13 (as stated, refuted): a context without roles value, or with a roles
value of another type, yields the zero roles and no failure; the roles-less
caller of realm 3 gets the user listing of its realm. -/
theorem GetRoles_absent_yields_zero_roles :
    GetRoles { subject := some (.str "9"), realm := some (.int64 3) } = {} ∧
    GetRoles { subject := some (.str "9"), roles := some .other, realm := some (.int64 3) } =
      {} ∧
    getUsersHandler exampleServer { subject := some (.str "9"), realm := some (.int64 3) } =
      ⟨StatusOK, .users [], [.GetUsersByRealm 3]⟩ := by
  decide

/-- C13 (amended): `GetSubject` returns an error when the subject is absent,
not a string, or a string that is not a base-10 int64, and returns `n` exactly
on a string that is the base-10 int64 `n`; `GetRealmID` returns an error when
the realm is absent or not an int64, and returns `n` exactly on the int64 `n`;
`GetRoles` never fails: it returns the roles value when there is one, and the
zero roles (every flag false) when the value is absent or of another type. -/
theorem claims_extraction (r : Request) :
    (r.subject = none → ∃ e, GetSubject r = .error e) ∧
    (∀ v, r.subject = some v → (∀ s, v ≠ .str s) → ∃ e, GetSubject r = .error e) ∧
    (∀ s, r.subject = some (.str s) → (∀ n, ¬ IsBase10Int64 s n) →
      ∃ e, GetSubject r = .error e) ∧
    (∀ n, GetSubject r = .ok n ↔ ∃ s, r.subject = some (.str s) ∧ IsBase10Int64 s n) ∧
    (r.realm = none → ∃ e, GetRealmID r = .error e) ∧
    (∀ v, r.realm = some v → (∀ n, v ≠ .int64 n) → ∃ e, GetRealmID r = .error e) ∧
    (∀ n, GetRealmID r = .ok n ↔ r.realm = some (.int64 n)) ∧
    (r.roles = none → GetRoles r = {}) ∧
    (∀ v, r.roles = some v → (∀ x, v ≠ .roles x) → GetRoles r = {}) ∧
    (∀ x, r.roles = some (.roles x) → GetRoles r = x) := by
  refine ⟨?_, ?_, ?_, GetSubject_eq_ok_iff r, ?_, ?_, GetRealmID_eq_ok_iff r, ?_, ?_, ?_⟩
  · intro h
    apply exists_error_of_not_ok
    intro n hn
    obtain ⟨s, hs, _⟩ := (GetSubject_eq_ok_iff r n).1 hn
    rw [h] at hs
    exact Option.noConfusion hs
  · intro v hv hns
    apply exists_error_of_not_ok
    intro n hn
    obtain ⟨s, hs, _⟩ := (GetSubject_eq_ok_iff r n).1 hn
    rw [hv, Option.some.injEq] at hs
    exact hns s hs
  · intro s hs hnot
    apply exists_error_of_not_ok
    intro n hn
    obtain ⟨s2, hs2, hbase⟩ := (GetSubject_eq_ok_iff r n).1 hn
    rw [hs, Option.some.injEq, CtxValue.str.injEq] at hs2
    subst hs2
    exact hnot n hbase
  · intro h
    apply exists_error_of_not_ok
    intro n hn
    rw [GetRealmID_eq_ok_iff, h] at hn
    exact Option.noConfusion hn
  · intro v hv hni
    apply exists_error_of_not_ok
    intro n hn
    rw [GetRealmID_eq_ok_iff, hv, Option.some.injEq] at hn
    exact hni n hn
  · intro h
    simp [GetRoles, h]
  · intro v hv hnr
    unfold GetRoles
    rw [hv]
    cases v with
    | roles x => exact absurd rfl (hnr x)
    | str s => rfl
    | int64 m => rfl
    | other => rfl
  · intro x hx
    simp [GetRoles, hx]

/-- C13 (witness): a context with subject `12x`, a string realm and no roles:
both accessors with an error return fail, `GetRoles` gives the zero roles. -/
theorem claims_extraction_witness :
    (∃ e, GetSubject { subject := some (.str "12x"), realm := some (.str "3") } = .error e) ∧
    (∃ e, GetRealmID { subject := some (.str "12x"), realm := some (.str "3") } = .error e) ∧
    GetRoles { subject := some (.str "12x"), realm := some (.str "3") } = {} :=
  ⟨exists_error_of_not_ok _ (fun n hn => by
      have h := ((claims_extraction
        { subject := some (.str "12x"), realm := some (.str "3") }).2.2.2.1 n).1 hn
      obtain ⟨s, hs, hbase⟩ := h
      simp only [Option.some.injEq, CtxValue.str.injEq] at hs
      subst hs
      have hp := (ParseInt_eq_some_iff "12x" n).2 hbase
      have hnone : ParseInt "12x" = none := by decide
      rw [hnone] at hp
      exact Option.noConfusion hp),
   (claims_extraction { subject := some (.str "12x"), realm := some (.str "3") }).2.2.2.2.2.1
      (.str "3") rfl (fun n h => CtxValue.noConfusion h),
   (claims_extraction { subject := some (.str "12x"), realm := some (.str "3") }).2.2.2.2.2.2.2.1
      rfl⟩

/-! ## Subject round trip -/

/-- Digits of an unsigned value as `FormatUint` prints them. -/
theorem FormatUint_digits (u : Nat) :
    ∃ ds : List Nat, ds ≠ [] ∧ (∀ d ∈ ds, d < 10) ∧ FormatUint u = ds.map digitChar ∧
      decimalValue ds = u := by
  unfold FormatUint
  by_cases hu : u = 0
  · subst hu
    exact ⟨[0], by simp, by simp, rfl, rfl⟩
  · rw [if_neg hu]
    refine ⟨(Nat.digits 10 u).reverse, ?_, ?_, rfl, ?_⟩
    · simpa using Nat.digits_ne_nil_iff_ne_zero.2 hu
    · intro d hd
      exact Nat.digits_lt_base (by norm_num) (List.mem_reverse.1 hd)
    · unfold decimalValue
      rw [List.foldl_reverse]
      have h := Nat.ofDigits_digits 10 u
      rw [Nat.ofDigits_eq_foldr] at h
      have hf : (fun (x y : Nat) => y * 10 + x) = fun (x y : Nat) => (x : Nat) + (10 : Nat) * y := by
        funext x y
        omega
      rw [hf]
      simpa using h

theorem FormatInt_isBase10Int64 (id : Int) (hlo : int64Min ≤ id) (hhi : id ≤ int64Max) :
    IsBase10Int64 (FormatInt id) id := by
  obtain ⟨ds, hne, hds, hfmt, hval⟩ := FormatUint_digits id.natAbs
  unfold FormatInt
  by_cases hneg : id < 0
  · refine ⟨['-'], ds, by simp, hne, hds, ?_, ?_, hlo, hhi⟩
    · simp [hneg, hfmt, String.toList]
    · rw [if_pos rfl, hval]
      omega
  · refine ⟨[], ds, by simp, hne, hds, ?_, ?_, hlo, hhi⟩
    · simp [hneg, hfmt, String.toList]
    · have hnot : ¬ (([] : List Char) = ['-']) := by decide
      rw [if_neg hnot, hval]
      omega

/-- C15: for every user whose id is an int64, the subject
`authenticateHandler` puts in the token is `FormatInt` of the id, and
`GetSubject` on a context holding that subject string returns exactly the id
and no error. -/
theorem subject_round_trip (user : User) (now : Int) (r : Request)
    (hlo : int64Min ≤ user.ID) (hhi : user.ID ≤ int64Max)
    (hsub : r.subject = some (.str (authenticateClaims user now).Subject)) :
    (authenticateClaims user now).Subject = FormatInt user.ID ∧
    ParseInt (FormatInt user.ID) = some user.ID ∧
    GetSubject r = .ok user.ID := by
  have hbase := FormatInt_isBase10Int64 user.ID hlo hhi
  refine ⟨rfl, (ParseInt_eq_some_iff _ _).2 hbase, ?_⟩
  exact (GetSubject_eq_ok_iff r user.ID).2 ⟨_, hsub, hbase⟩

/-- C15 (witness): the int64 minimum, the int64 maximum and a negative id. -/
theorem subject_round_trip_witness :
    GetSubject { subject := some (.str (FormatInt (-9223372036854775808))) } =
      .ok (-9223372036854775808) ∧
    GetSubject { subject := some (.str (FormatInt 9223372036854775807)) } =
      .ok 9223372036854775807 ∧
    GetSubject { subject := some (.str (FormatInt (-42))) } = .ok (-42) :=
  ⟨(subject_round_trip { ID := -9223372036854775808 } 0
      { subject := some (.str (FormatInt (-9223372036854775808))) }
      (by decide) (by decide) rfl).2.2,
   (subject_round_trip { ID := 9223372036854775807 } 0
      { subject := some (.str (FormatInt 9223372036854775807)) }
      (by decide) (by decide) rfl).2.2,
   (subject_round_trip { ID := -42 } 0
      { subject := some (.str (FormatInt (-42))) } (by decide) (by decide) rfl).2.2⟩

/-! ## Visible schemas -/

/-- Rows `GetVisibleSchemas` returns for a nil realm: those of the table with
a null year or with a realm among the sharing realms. -/
theorem mem_GetVisibleSchemas_nil (realms : List Realm) (schemas : List Schema)
    (withRealm : Int → Except StoreError (List Schema)) (schema : Schema) :
    (∃ l, GetVisibleSchemas realms schemas withRealm none = .ok l ∧ schema ∈ l) ↔
      schema ∈ schemas ∧
        (schema.Year = none ∨
          ∃ id, schema.RealmID = some id ∧ ∃ realm ∈ realms, realm.ShareReports = true ∧
            realm.ID = id) := by
  unfold GetVisibleSchemas visibleWithoutRealm sqlIn publicRealms
  simp only [Except.ok.injEq, exists_eq_left', List.mem_filter, Bool.or_eq_true,
    Option.isNone_iff_eq_none]
  constructor
  · rintro ⟨hmem, h⟩
    refine ⟨hmem, ?_⟩
    rcases h with h | h
    · exact Or.inl h
    · right
      cases hr : schema.RealmID with
      | none => simp [hr] at h
      | some id =>
        simp [hr] at h
        obtain ⟨realm, ⟨hin, hshare⟩, hid⟩ := h
        exact ⟨id, rfl, realm, hin, hshare, hid⟩
  · rintro ⟨hmem, h⟩
    refine ⟨hmem, ?_⟩
    rcases h with h | ⟨id, hid, realm, hin, hshare, hrid⟩
    · exact Or.inl h
    · right
      simp [hid]
      exact ⟨realm, ⟨hin, hshare⟩, hrid⟩

/-- C14 (code evaluated): with a nil realm, `GetVisibleSchemas` returns every
schema whose year is null, whatever its realm. On a table holding realm 7 with
`share_reports = false` and two schemas of realm 7, the one without year is
returned: a schema that is not standard and is owned by a private realm. -/
theorem GetVisibleSchemas_returns_private_realm_schema :
    (∀ (realms : List Realm) (schemas : List Schema)
        (withRealm : Int → Except StoreError (List Schema)) (schema : Schema),
      schema ∈ schemas → schema.Year = none →
        ∃ l, GetVisibleSchemas realms schemas withRealm none = .ok l ∧ schema ∈ l) ∧
    GetVisibleSchemas [{ ID := 7, ShareReports := false }]
        [{ ID := 1, Year := none, RealmID := some 7 },
         { ID := 2, Year := some 2019, RealmID := some 7 }]
        (fun _ => .error .other) none =
      .ok [{ ID := 1, Year := none, RealmID := some 7 }] ∧
    ownedByPrivateRealm [{ ID := 7, ShareReports := false }]
      { ID := 1, Year := none, RealmID := some 7 } = true ∧
    publicRealms [{ ID := 7, ShareReports := false }] = [] := by
  refine ⟨?_, by decide, by decide, by decide⟩
  intro realms schemas withRealm schema hmem hyear
  exact (mem_GetVisibleSchemas_nil realms schemas withRealm schema).2 ⟨hmem, Or.inl hyear⟩

/-! ## Serial orders of upserts -/

theorem length_filter_map_of_preserved {α : Type} (p : α → Bool) (f : α → α)
    (hf : ∀ a, p (f a) = p a) (l : List α) :
    ((l.map f).filter p).length = (l.filter p).length := by
  induction l with
  | nil => rfl
  | cons a l ih =>
    cases hp : p a <;> simp [List.filter_cons, hf, hp, ih]

/-- Folding a step that, on a targeting input, creates the key when absent
and otherwise keeps the number of rows with the key: from at most one row,
any sequence with a targeting input leaves exactly one. -/
theorem foldl_count_eq_one {T S : Type} (step : T → S → T) (count : T → Nat)
    (targets : S → Prop) [DecidablePred targets]
    (hstep : ∀ t s, count (step t s) = if targets s then max 1 (count t) else count t)
    (ss : List S) (t : T) (hle : count t ≤ 1) (hex : ∃ s ∈ ss, targets s) :
    count (ss.foldl step t) = 1 := by
  have keep : ∀ (l : List S) (u : T), count u = 1 → count (l.foldl step u) = 1 := by
    intro l
    induction l with
    | nil => intro u hu; exact hu
    | cons a l ih =>
      intro u hu
      apply ih
      rw [hstep, hu]
      split <;> rfl
  induction ss generalizing t with
  | nil =>
    obtain ⟨s, hs, _⟩ := hex
    cases hs
  | cons a l ih =>
    simp only [List.foldl_cons]
    by_cases ha : targets a
    · apply keep
      rw [hstep, if_pos ha]
      omega
    · apply ih
      · rw [hstep, if_neg ha]
        exact hle
      · obtain ⟨s, hs, hts⟩ := hex
        simp only [List.mem_cons] at hs
        rcases hs with rfl | hs
        · exact absurd hts ha
        · exact ⟨s, hs, hts⟩

/-- Number of rows with a non-null key after one `UpsertReport`: a call
targeting the key creates the row when there is none; any other call, and a
targeting call on an existing row, leaves the number as it is. -/
theorem length_rowsWithKey_UpsertReport (t : Reports) (r : Report) (matchKey teamKey : String)
    (rep : Int) :
    (rowsWithKey (UpsertReport t r) matchKey teamKey (some rep)).length =
      if r.MatchKey = matchKey ∧ r.TeamKey = teamKey ∧ r.ReporterID = some rep then
        max 1 (rowsWithKey t matchKey teamKey (some rep)).length
      else (rowsWithKey t matchKey teamKey (some rep)).length := by
  unfold UpsertReport rowsWithKey
  cases hany : t.rows.any (conflicts r)
  · simp only [Bool.false_eq_true, if_false, List.filter_append, List.length_append]
    by_cases htar : r.MatchKey = matchKey ∧ r.TeamKey = teamKey ∧ r.ReporterID = some rep
    · obtain ⟨hm, ht, hr⟩ := htar
      have hnil : t.rows.filter (fun row =>
          row.MatchKey == matchKey && row.TeamKey == teamKey &&
            row.ReporterID == some rep) = [] := by
        rw [← any_eq_false_iff_filter_nil, ← hm, ← ht, ← conflicts_eq_hasKey r rep hr]
        exact hany
      simp [hnil, hm, ht, hr]
    · rw [if_neg htar]
      have hnew : (List.filter (fun row : Report =>
          row.MatchKey == matchKey && row.TeamKey == teamKey && row.ReporterID == some rep)
          [{ r with ID := t.nextID }]) = [] := by
        simp only [List.filter_cons, List.filter_nil]
        split
        · rename_i h
          simp only [Bool.and_eq_true, beq_iff_eq] at h
          exact absurd ⟨h.1.1, h.1.2, h.2⟩ htar
        · rfl
      rw [hnew]
      rfl
  · simp only [if_true]
    have hlen := length_filter_map_of_preserved
      (fun row : Report =>
        row.MatchKey == matchKey && row.TeamKey == teamKey && row.ReporterID == some rep)
      (fun old => if conflicts r old then { old with AutoName := r.AutoName, Data := r.Data }
        else old)
      (fun a => by
        beta_reduce
        cases conflicts r a <;> rfl) t.rows
    rw [hlen]
    by_cases htar : r.MatchKey = matchKey ∧ r.TeamKey = teamKey ∧ r.ReporterID = some rep
    · obtain ⟨hm, ht, hr⟩ := htar
      have hne : t.rows.filter (fun row =>
          row.MatchKey == matchKey && row.TeamKey == teamKey &&
            row.ReporterID == some rep) ≠ [] := by
        intro h
        rw [← any_eq_false_iff_filter_nil, ← hm, ← ht, ← conflicts_eq_hasKey r rep hr, hany] at h
        exact Bool.noConfusion h
      have hpos := List.length_pos.2 hne
      rw [if_pos ⟨hm, ht, hr⟩]
      omega
    · rw [if_neg htar]

/-- Number of rows with a key after one execution of the alliance statement. -/
theorem length_alliancesWithKey_upsertAlliance (t : List Alliance) (teamKeys : List String)
    (stmtKey matchKey : String) (stmtBlue isBlue : Bool) :
    (alliancesWithKey (upsertAlliance t teamKeys stmtKey stmtBlue) matchKey isBlue).length =
      if stmtKey = matchKey ∧ stmtBlue = isBlue then
        max 1 (alliancesWithKey t matchKey isBlue).length
      else (alliancesWithKey t matchKey isBlue).length := by
  unfold upsertAlliance alliancesWithKey
  cases hany : t.any (allianceConflicts stmtKey stmtBlue)
  · simp only [Bool.false_eq_true, if_false, List.filter_append, List.length_append]
    by_cases htar : stmtKey = matchKey ∧ stmtBlue = isBlue
    · obtain ⟨rfl, rfl⟩ := htar
      have hnil := (any_eq_false_iff_filter_nil _ _).1 hany
      simp [hnil, allianceConflicts]
    · rw [if_neg htar]
      have hnew : (List.filter (allianceConflicts matchKey isBlue)
          [{ TeamKeys := teamKeys, MatchKey := stmtKey, IsBlue := stmtBlue }]) = [] := by
        simp only [List.filter_cons, List.filter_nil]
        split
        · rename_i h
          simp only [allianceConflicts, Bool.and_eq_true, beq_iff_eq] at h
          exact absurd h htar
        · rfl
      rw [hnew]
      rfl
  · simp only [if_true]
    have hlen := length_filter_map_of_preserved (allianceConflicts matchKey isBlue)
      (fun old => if allianceConflicts stmtKey stmtBlue old then
        { old with TeamKeys := teamKeys } else old)
      (fun a => by
        beta_reduce
        cases allianceConflicts stmtKey stmtBlue a <;> rfl) t
    rw [hlen]
    by_cases htar : stmtKey = matchKey ∧ stmtBlue = isBlue
    · obtain ⟨rfl, rfl⟩ := htar
      have hne : t.filter (allianceConflicts stmtKey stmtBlue) ≠ [] := by
        intro h
        rw [← any_eq_false_iff_filter_nil, hany] at h
        exact Bool.noConfusion h
      have hpos := List.length_pos.2 hne
      simp only [and_self, if_true]
      omega
    · rw [if_neg htar]

/-- A call of `UpsertReport` with a null reporter conflicts with no row and
adds one row with its key. -/
theorem length_rowsWithKey_UpsertReport_null (t : Reports) (r : Report)
    (hrep : r.ReporterID = none) :
    (rowsWithKey (UpsertReport t r) r.MatchKey r.TeamKey none).length =
      (rowsWithKey t r.MatchKey r.TeamKey none).length + 1 := by
  have hconf : conflicts r = fun _ => false := by
    funext old
    unfold conflicts sqlEq
    rw [hrep]
    cases old.ReporterID <;> simp
  have hany : t.rows.any (conflicts r) = false := by
    rw [hconf]
    simp
  unfold UpsertReport rowsWithKey
  rw [hany]
  simp [List.filter_append, hrep]

theorem length_rowsWithKey_runUpsertReports_null (rs : List Report) (t : Reports)
    (matchKey teamKey : String)
    (hrs : ∀ r ∈ rs, r.MatchKey = matchKey ∧ r.TeamKey = teamKey ∧ r.ReporterID = none) :
    (rowsWithKey (runUpsertReports t rs) matchKey teamKey none).length =
      (rowsWithKey t matchKey teamKey none).length + rs.length := by
  induction rs generalizing t with
  | nil => rfl
  | cons r rs ih =>
    obtain ⟨hm, ht, hr⟩ := hrs r (by simp)
    have hstep := length_rowsWithKey_UpsertReport_null t r hr
    rw [hm, ht] at hstep
    unfold runUpsertReports at ih ⊢
    rw [List.foldl_cons, ih (UpsertReport t r) (fun x hx => hrs x (by simp [hx])), hstep,
      List.length_cons]
    omega

/-- C10 (as stated, refuted): three `UpsertReport` calls with the same key
`("qm1", "frc254", NULL)`, run one after the other from the empty table, leave
three rows with that key. -/
theorem runUpsertReports_null_reporter_three_rows :
    (rowsWithKey
        (runUpsertReports {}
          [{ MatchKey := "qm1", TeamKey := "frc254", ReporterID := none, AutoName := "left" },
           { MatchKey := "qm1", TeamKey := "frc254", ReporterID := none, AutoName := "mid" },
           { MatchKey := "qm1", TeamKey := "frc254", ReporterID := none,
             AutoName := "right" }])
        "qm1" "frc254" none).length = 3 := by
  decide

/-- C10 (amended): each statement being atomic, an interleaving of concurrent
upserts is a serial order of statement executions. For every such order of
`UpsertReport` calls, at least one of which targets a natural key with a
non-null reporter id, from a table with at most one row with that key, exactly
one row with that key is left; for every such order of executions of the
statement of `AlliancesUpsertTx`, at least one of which targets the key
`(matchKey, isBlue)`, from a table with at most one row with that key, exactly
one row with that key is left; and every non-empty serial order of
`AlliancesUpsertTx` calls on one match, from a table with at most one row per
side, leaves exactly one row for each side. Every serial order of `N`
`UpsertReport` calls on one key with a null reporter id adds `N` rows with
that key. -/
theorem serial_upserts_leave_one_row :
    (∀ (t : Reports) (rs : List Report) (matchKey teamKey : String) (rep : Int),
      (rowsWithKey t matchKey teamKey (some rep)).length ≤ 1 →
      (∃ r ∈ rs, r.MatchKey = matchKey ∧ r.TeamKey = teamKey ∧ r.ReporterID = some rep) →
        (rowsWithKey (runUpsertReports t rs) matchKey teamKey (some rep)).length = 1) ∧
    (∀ (t : List Alliance) (stmts : List AllianceStmt) (matchKey : String) (isBlue : Bool),
      (alliancesWithKey t matchKey isBlue).length ≤ 1 →
      (∃ s ∈ stmts, s.MatchKey = matchKey ∧ s.IsBlue = isBlue) →
        (alliancesWithKey (runAllianceStmts t stmts) matchKey isBlue).length = 1) ∧
    (∀ (t : List Alliance) (matchKey : String) (calls : List (List String × List String)),
      calls ≠ [] →
      (alliancesWithKey t matchKey true).length ≤ 1 →
      (alliancesWithKey t matchKey false).length ≤ 1 →
        (alliancesWithKey
          (calls.foldl (fun t c => AlliancesUpsertTx t matchKey c.1 c.2) t)
          matchKey true).length = 1 ∧
        (alliancesWithKey
          (calls.foldl (fun t c => AlliancesUpsertTx t matchKey c.1 c.2) t)
          matchKey false).length = 1) ∧
    (∀ (t : Reports) (rs : List Report) (matchKey teamKey : String),
      (∀ r ∈ rs, r.MatchKey = matchKey ∧ r.TeamKey = teamKey ∧ r.ReporterID = none) →
        (rowsWithKey (runUpsertReports t rs) matchKey teamKey none).length =
          (rowsWithKey t matchKey teamKey none).length + rs.length) := by
  refine ⟨?_, ?_, ?_, fun t rs matchKey teamKey hrs =>
    length_rowsWithKey_runUpsertReports_null rs t matchKey teamKey hrs⟩
  · intro t rs matchKey teamKey rep hle hex
    exact foldl_count_eq_one UpsertReport
      (fun t => (rowsWithKey t matchKey teamKey (some rep)).length)
      (fun r => r.MatchKey = matchKey ∧ r.TeamKey = teamKey ∧ r.ReporterID = some rep)
      (fun t r => length_rowsWithKey_UpsertReport t r matchKey teamKey rep) rs t hle hex
  · intro t stmts matchKey isBlue hle hex
    exact foldl_count_eq_one (fun t s => upsertAlliance t s.TeamKeys s.MatchKey s.IsBlue)
      (fun t => (alliancesWithKey t matchKey isBlue).length)
      (fun s => s.MatchKey = matchKey ∧ s.IsBlue = isBlue)
      (fun t s => length_alliancesWithKey_upsertAlliance t s.TeamKeys s.MatchKey matchKey
        s.IsBlue isBlue) stmts t hle hex
  · intro t matchKey calls hne hblue hred
    obtain ⟨c, cs, rfl⟩ := List.exists_cons_of_ne_nil hne
    have hside : ∀ (isBlue : Bool) (u : List Alliance) (x : List String × List String),
        (alliancesWithKey (AlliancesUpsertTx u matchKey x.1 x.2) matchKey isBlue).length =
          if True then max 1 (alliancesWithKey u matchKey isBlue).length
          else (alliancesWithKey u matchKey isBlue).length := by
      intro isBlue u x
      unfold AlliancesUpsertTx
      rw [length_alliancesWithKey_upsertAlliance, length_alliancesWithKey_upsertAlliance]
      cases isBlue <;> simp
    constructor
    · exact foldl_count_eq_one (fun t c => AlliancesUpsertTx t matchKey c.1 c.2)
        (fun t => (alliancesWithKey t matchKey true).length) (fun _ => True)
        (fun u x => hside true u x) (c :: cs) t hblue ⟨c, by simp, trivial⟩
    · exact foldl_count_eq_one (fun t c => AlliancesUpsertTx t matchKey c.1 c.2)
        (fun t => (alliancesWithKey t matchKey false).length) (fun _ => True)
        (fun u x => hside false u x) (c :: cs) t hred ⟨c, by simp, trivial⟩

/-- C10 (witness): three reporters' calls in one order, two of them by
reporter 9 on team frc254 in match qm1, leave one row for that key; two
`AlliancesUpsertTx` calls on match qm1 leave one blue row. -/
theorem serial_upserts_leave_one_row_witness :
    (rowsWithKey
        (runUpsertReports {}
          [{ MatchKey := "qm1", TeamKey := "frc254", ReporterID := some 9, AutoName := "left" },
           { MatchKey := "qm1", TeamKey := "frc254", ReporterID := some 4, AutoName := "mid" },
           { MatchKey := "qm1", TeamKey := "frc254", ReporterID := some 9,
             AutoName := "right" }])
        "qm1" "frc254" (some 9)).length = 1 ∧
    (alliancesWithKey
        ([(["frc254"], ["frc1678"]), (["frc254", "frc971"], ["frc1678"])].foldl
          (fun t c => AlliancesUpsertTx t "qm1" c.1 c.2) [])
        "qm1" true).length = 1 :=
  ⟨serial_upserts_leave_one_row.1 {} _ "qm1" "frc254" 9 (by decide)
      ⟨{ MatchKey := "qm1", TeamKey := "frc254", ReporterID := some 9, AutoName := "left" },
        by simp, rfl, rfl, rfl⟩,
   (serial_upserts_leave_one_row.2.2.1 [] "qm1" _ (by simp) (by decide) (by decide)).1⟩

end Peregrine
